import Mathlib

/-!
Shallow embedding of two Blender source files:

* `source/blender/editors/curve/editcurve_paint.cc` — the interactive
  curve-draw operator (stroke capture, substep interpolation, taper,
  Bézier fitting glue, poly-line output);
* `source/blender/geometry/intern/transform.cc` — geometry transform
  dispatch (translate/transform over meshes, curves, point clouds,
  volumes, instances, grease pencil, edit hints).

Scalars are exact rationals.  External host functions (view-space
projection, depth-buffer reads, vector normalization `sqrt`, the
curve-fit library, `BKE_nurb_handles_calc`, the determinant-validity
predicate) are parameters of the embedding: every theorem that needs a
fact about them states it as an explicit hypothesis.
-/

set_option autoImplicit false

namespace Blender

/-- A 3-vector of rationals (C `float[3]`). -/
structure V3 where
  x : ℚ
  y : ℚ
  z : ℚ
deriving DecidableEq, Repr

instance : Zero V3 := ⟨⟨0, 0, 0⟩⟩

instance : Add V3 := ⟨fun a b => ⟨a.x + b.x, a.y + b.y, a.z + b.z⟩⟩

/-- BLI `madd_v3_v3fl`: `r = a + n * f`. -/
def madd_v3_v3fl (a n : V3) (f : ℚ) : V3 :=
  ⟨a.x + n.x * f, a.y + n.y * f, a.z + n.z * f⟩

/-- A 4-vector of rationals (C `float[4]`, one column of a 4x4 matrix). -/
structure V4 where
  x : ℚ
  y : ℚ
  z : ℚ
  w : ℚ
deriving DecidableEq, Repr

/-- A 4x4 matrix in Blender's column-major layout: `cx` is column 0
(`x_axis` basis vector plus homogeneous 0), `cw` is column 3 (the
location). -/
structure M44 where
  cx : V4
  cy : V4
  cz : V4
  cw : V4
deriving DecidableEq, Repr

/-- The identity matrix (`float4x4::identity()`). -/
def m4identity : M44 :=
  ⟨⟨1, 0, 0, 0⟩, ⟨0, 1, 0, 0⟩, ⟨0, 0, 1, 0⟩, ⟨0, 0, 0, 1⟩⟩

/-- Apply a 4x4 matrix to a 4-vector (column-major: result is the linear
combination of columns). -/
def m4applyV4 (M : M44) (v : V4) : V4 :=
  ⟨M.cx.x * v.x + M.cy.x * v.y + M.cz.x * v.z + M.cw.x * v.w,
   M.cx.y * v.x + M.cy.y * v.y + M.cz.y * v.z + M.cw.y * v.w,
   M.cx.z * v.x + M.cy.z * v.y + M.cz.z * v.z + M.cw.z * v.w,
   M.cx.w * v.x + M.cy.w * v.y + M.cz.w * v.z + M.cw.w * v.w⟩

/-- Matrix product `A * B` (column `j` of the product is `A` applied to
column `j` of `B`). -/
def m4mul (A B : M44) : M44 :=
  ⟨m4applyV4 A B.cx, m4applyV4 A B.cy, m4applyV4 A B.cz, m4applyV4 A B.cw⟩

/-- BLI `mul_v3_m4v3` / `math::transform_point`: apply a 4x4 matrix to a
3-point with implicit homogeneous coordinate 1. -/
def mul_v3_m4v3 (M : M44) (v : V3) : V3 :=
  ⟨M.cx.x * v.x + M.cy.x * v.y + M.cz.x * v.z + M.cw.x,
   M.cx.y * v.x + M.cy.y * v.y + M.cz.y * v.z + M.cw.y,
   M.cx.z * v.x + M.cy.z * v.y + M.cz.z * v.z + M.cw.z⟩

/-- 4x4 determinant (`math::determinant`), by the standard expansion into
complementary 2x2 minors; `aij` is row `i`, column `j`. -/
def det4 (M : M44) : ℚ :=
  let a00 := M.cx.x; let a01 := M.cy.x; let a02 := M.cz.x; let a03 := M.cw.x
  let a10 := M.cx.y; let a11 := M.cy.y; let a12 := M.cz.y; let a13 := M.cw.y
  let a20 := M.cx.z; let a21 := M.cy.z; let a22 := M.cz.z; let a23 := M.cw.z
  let a30 := M.cx.w; let a31 := M.cy.w; let a32 := M.cz.w; let a33 := M.cw.w
  (a00 * a11 - a01 * a10) * (a22 * a33 - a23 * a32) -
    (a00 * a12 - a02 * a10) * (a21 * a33 - a23 * a31) +
    (a00 * a13 - a03 * a10) * (a21 * a32 - a22 * a31) +
    (a01 * a12 - a02 * a11) * (a20 * a33 - a23 * a30) -
    (a01 * a13 - a03 * a11) * (a20 * a32 - a22 * a30) +
    (a02 * a13 - a03 * a12) * (a20 * a31 - a21 * a30)

/-- `float4x4::x_axis()`: first three components of column 0. -/
def x_axis (M : M44) : V3 := ⟨M.cx.x, M.cx.y, M.cx.z⟩

/-- `float4x4::y_axis()`: first three components of column 1. -/
def y_axis (M : M44) : V3 := ⟨M.cy.x, M.cy.y, M.cy.z⟩

/-- `float4x4::z_axis()`: first three components of column 2. -/
def z_axis (M : M44) : V3 := ⟨M.cz.x, M.cz.y, M.cz.z⟩

/-- `float4x4::location()`: first three components of column 3. -/
def m4location (M : M44) : V3 := ⟨M.cw.x, M.cw.y, M.cw.z⟩

/-- Assignment `M.x_axis() = v` (keeps the homogeneous component). -/
def set_x_axis (M : M44) (v : V3) : M44 := { M with cx := ⟨v.x, v.y, v.z, M.cx.w⟩ }

/-- Assignment `M.y_axis() = v`. -/
def set_y_axis (M : M44) (v : V3) : M44 := { M with cy := ⟨v.x, v.y, v.z, M.cy.w⟩ }

/-- Assignment `M.z_axis() = v`. -/
def set_z_axis (M : M44) (v : V3) : M44 := { M with cz := ⟨v.x, v.y, v.z, M.cz.w⟩ }

/-- Assignment `M.location() = v` (used by `translate_greasepencil` and
`translate_gizmos_edit_hints`, `m.location() += translation`). -/
def set_location (M : M44) (v : V3) : M44 := { M with cw := ⟨v.x, v.y, v.z, M.cw.w⟩ }

/-- `math::from_location<float4x4>`: pure translation matrix. -/
def from_location (t : V3) : M44 :=
  ⟨⟨1, 0, 0, 0⟩, ⟨0, 1, 0, 0⟩, ⟨0, 0, 1, 0⟩, ⟨t.x, t.y, t.z, 1⟩⟩

/-- A 3x3 matrix (columns), for edit-hint deformation matrices. -/
structure M33 where
  cx : V3
  cy : V3
  cz : V3
deriving DecidableEq, Repr

/-- `copy_m3_m4`: upper-left 3x3 block of a 4x4 matrix. -/
def copy_m3_m4 (M : M44) : M33 :=
  ⟨⟨M.cx.x, M.cx.y, M.cx.z⟩, ⟨M.cy.x, M.cy.y, M.cy.z⟩, ⟨M.cz.x, M.cz.y, M.cz.z⟩⟩

/-- 3x3 matrix product. -/
def m3mul (A B : M33) : M33 :=
  let ap : M33 → V3 → V3 := fun M v =>
    ⟨M.cx.x * v.x + M.cy.x * v.y + M.cz.x * v.z,
     M.cx.y * v.x + M.cy.y * v.y + M.cz.y * v.z,
     M.cx.z * v.x + M.cy.z * v.y + M.cz.z * v.z⟩
  ⟨ap A B.cx, ap A B.cy, ap A B.cz⟩

/-! ## Model of `source/blender/geometry/intern/transform.cc` -/

/-- One volume grid: its transform matrix plus whether its tree has been
cleared (`bke::volume_grid::clear_tree`); the voxel payload itself is
host data and not modelled. -/
structure GridData where
  matrix : M44
  tree_cleared : Bool
deriving DecidableEq, Repr

/-- `TransformGeometryErrors` (from `GEO_transform.hh`). -/
structure TransformGeometryErrors where
  volume_too_small : Bool
  bad_volume_transform : Bool
deriving DecidableEq, Repr

/-- Body of the per-grid loop of `transform_volume` (transform.cc lines
135-164).  `determinant_valid` stands for the external
`BKE_volume_grid_determinant_valid` predicate and `normalize` for the
external `math::normalize` (square-root based).  Returns the updated
grid and whether `volume_too_small` was flagged for this grid.  The
`try/catch` around the external `set_transform_matrix` (which would set
`bad_volume_transform`) is a host exception path and is not modelled. -/
def transform_volume_grid (determinant_valid : ℚ → Bool) (normalize : V3 → V3)
    (transform : M44) (grid : GridData) : GridData × Bool :=
  let grid_matrix := m4mul transform grid.matrix
  let determinant := det4 grid_matrix
  if determinant_valid determinant = false then
    let gm2 :=
      if determinant = 0 then
        set_z_axis (set_y_axis (set_x_axis grid_matrix ⟨1, 0, 0⟩) ⟨0, 1, 0⟩) ⟨0, 0, 1⟩
      else
        set_z_axis
          (set_y_axis (set_x_axis grid_matrix (normalize (x_axis grid_matrix)))
            (normalize (y_axis grid_matrix)))
          (normalize (z_axis grid_matrix))
    (⟨gm2, true⟩, true)
  else
    (⟨grid_matrix, grid.tree_cleared⟩, false)

/-- `transform_volume`: loop over all grids, accumulating the
`volume_too_small` flag. -/
def transform_volume (determinant_valid : ℚ → Bool) (normalize : V3 → V3)
    (transform : M44) (grids : List GridData) : List GridData × TransformGeometryErrors :=
  let step := fun (acc : List GridData × Bool) (g : GridData) =>
    let r := transform_volume_grid determinant_valid normalize transform g
    (acc.1 ++ [r.1], acc.2 || r.2)
  let out := grids.foldl step ([], false)
  (out.1, ⟨out.2, false⟩)

/-- `translate_volume`: transform by a pure translation matrix, errors
discarded. -/
def translate_volume (determinant_valid : ℚ → Bool) (normalize : V3 → V3)
    (grids : List GridData) (translation : V3) : List GridData :=
  (transform_volume determinant_valid normalize (from_location translation) grids).1

/-- `translate_positions`: the parallel-for body adds the translation to
every position. -/
def translate_positions (positions : List V3) (translation : V3) : List V3 :=
  positions.map (· + translation)

/-- `transform_positions`: apply the matrix to every position. -/
def transform_positions (positions : List V3) (matrix : M44) : List V3 :=
  positions.map (mul_v3_m4v3 matrix)

/-- `translate_pointcloud` (the bounds-cache maintenance touches host
runtime data only and is not modelled). -/
def translate_pointcloud (positions : List V3) (translation : V3) : List V3 :=
  if translation = 0 then positions else translate_positions positions translation

/-- `CurvesEditHints`: optional deformed positions, optional deformation
matrices, and the original point count (used when the matrices are first
allocated). -/
structure CurvesEditHints where
  positions : Option (List V3)
  deform_mats : Option (List M33)
  point_num : ℕ
deriving DecidableEq, Repr

/-- `transform_curve_edit_hints`. -/
def transform_curve_edit_hints (edit_hints : CurvesEditHints) (transform : M44) :
    CurvesEditHints :=
  let positions := edit_hints.positions.map (fun ps => transform_positions ps transform)
  let deform_mat := copy_m3_m4 transform
  let deform_mats :=
    match edit_hints.deform_mats with
    | some mats => some (mats.map (fun m => m3mul deform_mat m))
    | none => some (List.replicate edit_hints.point_num deform_mat)
  { edit_hints with positions := positions, deform_mats := deform_mats }

/-- `translate_curve_edit_hints`. -/
def translate_curve_edit_hints (edit_hints : CurvesEditHints) (translation : V3) :
    CurvesEditHints :=
  { edit_hints with
    positions := edit_hints.positions.map (fun ps => translate_positions ps translation) }

/-- One grease-pencil drawing's edit hints (`GreasePencilDrawingEditHints`). -/
structure GreasePencilDrawingEditHints where
  positions : Option (List V3)
  deform_mats : Option (List M33)
  points_num : ℕ
deriving DecidableEq, Repr

/-- `transform_grease_pencil_edit_hints` for a single drawing. -/
def transform_grease_pencil_drawing_hints (hints : GreasePencilDrawingEditHints)
    (transform : M44) : GreasePencilDrawingEditHints :=
  let positions := hints.positions.map (fun ps => transform_positions ps transform)
  let deform_mat := copy_m3_m4 transform
  let deform_mats :=
    match hints.deform_mats with
    | some mats => some (mats.map (fun m => m3mul deform_mat m))
    | none => some (List.replicate hints.points_num deform_mat)
  { hints with positions := positions, deform_mats := deform_mats }

/-- `bke::GeometrySet`, reduced to the data each component operation
actually touches: position lists for meshes / point clouds / curves
(the external `bke::mesh_translate`, `bke::mesh_transform` and
`CurvesGeometry::translate/transform` move positions the same way as the
in-file `translate_positions` / `transform_positions`), layer local
transforms for grease pencil, grid matrices for volumes, instance
transforms, and the edit-hint records. -/
structure GeometrySet where
  curves : Option (List V3)
  mesh : Option (List V3)
  pointcloud : Option (List V3)
  grease_pencil : Option (List M44)
  volume : Option (List GridData)
  instances : Option (List M44)
  curve_edit_hints : Option CurvesEditHints
  grease_pencil_edit_hints : Option (List GreasePencilDrawingEditHints)
  gizmo_edit_hints : Option (List M44)
deriving DecidableEq, Repr

/-- `translate_greasepencil`: add the translation to each layer's local
transform location. -/
def translate_greasepencil (layers : List M44) (translation : V3) : List M44 :=
  layers.map (fun m => set_location m (m4location m + translation))

/-- `transform_greasepencil`: pre-multiply each layer's local transform. -/
def transform_greasepencil (layers : List M44) (transform : M44) : List M44 :=
  layers.map (fun m => m4mul transform m)

/-- `translate_instances`: `add_v3_v3(instance_transform.ptr()[3],
translation)` adds to column 3 (the location). -/
def translate_instances (transforms : List M44) (translation : V3) : List M44 :=
  transforms.map (fun m => set_location m (m4location m + translation))

/-- `transform_instances`: pre-multiply each instance transform. -/
def transform_instances (transforms : List M44) (transform : M44) : List M44 :=
  transforms.map (fun m => m4mul transform m)

/-- `transform_gizmo_edit_hints` / `translate_gizmos_edit_hints` target. -/
def transform_gizmo_edit_hints (ms : List M44) (transform : M44) : List M44 :=
  ms.map (fun m => m4mul transform m)

/-- `translate_gizmos_edit_hints`. -/
def translate_gizmos_edit_hints (ms : List M44) (translation : V3) : List M44 :=
  ms.map (fun m => set_location m (m4location m + translation))

/-- `translate_geometry`: early return on the zero vector, otherwise
fan out to every present component. -/
def translate_geometry (determinant_valid : ℚ → Bool) (normalize : V3 → V3)
    (geometry : GeometrySet) (translation : V3) : GeometrySet :=
  if translation = 0 then geometry
  else
    { curves := geometry.curves.map (fun ps => translate_positions ps translation)
      mesh := geometry.mesh.map (fun ps => translate_positions ps translation)
      pointcloud := geometry.pointcloud.map (fun ps => translate_pointcloud ps translation)
      grease_pencil := geometry.grease_pencil.map (fun ls => translate_greasepencil ls translation)
      volume := geometry.volume.map
        (fun gs => translate_volume determinant_valid normalize gs translation)
      instances := geometry.instances.map (fun ts => translate_instances ts translation)
      curve_edit_hints := geometry.curve_edit_hints.map
        (fun h => translate_curve_edit_hints h translation)
      grease_pencil_edit_hints := geometry.grease_pencil_edit_hints
      gizmo_edit_hints := geometry.gizmo_edit_hints.map
        (fun ms => translate_gizmos_edit_hints ms translation) }

/-- `transform_geometry`: early `std::nullopt` return on the exact
identity matrix, otherwise fan out to every present component; an error
record is returned exactly when `volume_too_small` was flagged. -/
def transform_geometry (determinant_valid : ℚ → Bool) (normalize : V3 → V3)
    (geometry : GeometrySet) (transform : M44) :
    GeometrySet × Option TransformGeometryErrors :=
  if transform = m4identity then (geometry, none)
  else
    let volres := geometry.volume.map
      (fun gs => transform_volume determinant_valid normalize transform gs)
    let errors : TransformGeometryErrors :=
      match volres with
      | some r => r.2
      | none => ⟨false, false⟩
    let g2 : GeometrySet :=
      { curves := geometry.curves.map (fun ps => transform_positions ps transform)
        mesh := geometry.mesh.map (fun ps => transform_positions ps transform)
        pointcloud := geometry.pointcloud.map (fun ps => transform_positions ps transform)
        grease_pencil := geometry.grease_pencil.map
          (fun ls => transform_greasepencil ls transform)
        volume := volres.map (fun r => r.1)
        instances := geometry.instances.map (fun ts => transform_instances ts transform)
        curve_edit_hints := geometry.curve_edit_hints.map
          (fun h => transform_curve_edit_hints h transform)
        grease_pencil_edit_hints := geometry.grease_pencil_edit_hints.map
          (fun hs => hs.map (fun h => transform_grease_pencil_drawing_hints h transform))
        gizmo_edit_hints := geometry.gizmo_edit_hints.map
          (fun ms => transform_gizmo_edit_hints ms transform) }
    (g2, if errors.volume_too_small then some errors else none)

/-! ### Helper lemmas for the volume-transform fold -/

/-- The `transform_volume` fold is a map plus an `any` over the grids. -/
theorem transform_volume_foldl_eq (dv : ℚ → Bool) (nz : V3 → V3) (t : M44)
    (grids : List GridData) (acc : List GridData) (b : Bool) :
    grids.foldl
        (fun (acc : List GridData × Bool) (g : GridData) =>
          let r := transform_volume_grid dv nz t g
          (acc.1 ++ [r.1], acc.2 || r.2))
        (acc, b) =
      (acc ++ grids.map (fun g => (transform_volume_grid dv nz t g).1),
        b || grids.any (fun g => (transform_volume_grid dv nz t g).2)) := by
  induction grids generalizing acc b with
  | nil => simp
  | cons g t' ih =>
    simp only [List.foldl_cons, List.map_cons, List.any_cons]
    rw [ih]
    simp [List.append_assoc, Bool.or_assoc]

theorem transform_volume_eq_map (dv : ℚ → Bool) (nz : V3 → V3) (t : M44)
    (grids : List GridData) :
    transform_volume dv nz t grids =
      (grids.map (fun g => (transform_volume_grid dv nz t g).1),
        ⟨grids.any (fun g => (transform_volume_grid dv nz t g).2), false⟩) := by
  simp only [transform_volume]
  rw [transform_volume_foldl_eq]
  simp

/-! ### Claims C9 and C10 -/

/-- Claim C9: for every volume grid whose combined matrix
(`transform * grid_matrix`) fails the determinant-validity predicate,
`transform_volume` flags `volume_too_small` for the caller and resets
the grid matrix basis: identity axes when the determinant is exactly
zero, otherwise the normalized existing axes (rotation kept, scale
reset). -/
theorem C9_volume_degenerate_basis_reset (dv : ℚ → Bool) (nz : V3 → V3)
    (transform : M44) (grids : List GridData) (i : ℕ) (hi : i < grids.length)
    (hbad : dv (det4 (m4mul transform grids[i].matrix)) = false) :
    (transform_volume dv nz transform grids).2.volume_too_small = true ∧
      (transform_volume dv nz transform grids).1[i]? =
        some
          (let gm := m4mul transform grids[i].matrix
           ⟨(if det4 gm = 0 then
              set_z_axis (set_y_axis (set_x_axis gm ⟨1, 0, 0⟩) ⟨0, 1, 0⟩) ⟨0, 0, 1⟩
             else
              set_z_axis
                (set_y_axis (set_x_axis gm (nz (x_axis gm))) (nz (y_axis gm)))
                (nz (z_axis gm))),
            true⟩) := by
  rw [transform_volume_eq_map]
  constructor
  · simp only [List.any_eq_true]
    refine ⟨grids[i], List.getElem_mem hi, ?_⟩
    simp only [transform_volume_grid]
    rw [if_pos hbad]
  · rw [List.getElem?_map]
    rw [List.getElem?_eq_getElem hi]
    simp only [Option.map_some']
    congr 1
    simp only [transform_volume_grid]
    rw [if_pos hbad]

/-- Witness for C9 at a concrete input: one grid with identity matrix,
a validity predicate that rejects everything, identity `normalize`. -/
theorem C9_volume_degenerate_basis_reset_witness :
    (transform_volume (fun _ => false) (fun v => v) m4identity
          [⟨m4identity, false⟩]).2.volume_too_small = true ∧
      (transform_volume (fun _ => false) (fun v => v) m4identity
          [⟨m4identity, false⟩]).1[0]? =
        some
          (let gm := m4mul m4identity (([⟨m4identity, false⟩] :
              List GridData)[0]).matrix
           ⟨(if det4 gm = 0 then
              set_z_axis (set_y_axis (set_x_axis gm ⟨1, 0, 0⟩) ⟨0, 1, 0⟩) ⟨0, 0, 1⟩
             else
              set_z_axis
                (set_y_axis (set_x_axis gm ((fun v => v) (x_axis gm)))
                  ((fun v => v) (y_axis gm)))
                ((fun v => v) (z_axis gm))),
            true⟩) :=
  C9_volume_degenerate_basis_reset (fun _ => false) (fun v => v) m4identity
    [⟨m4identity, false⟩] 0 (by decide) rfl

/-- Claim C10: `translate_geometry` with the zero vector and
`transform_geometry` with the exact identity matrix return immediately,
leaving every geometry component unchanged, and `transform_geometry`
reports no error in that case. -/
theorem C10_identity_early_return (dv : ℚ → Bool) (nz : V3 → V3) (g : GeometrySet) :
    translate_geometry dv nz g 0 = g ∧
      transform_geometry dv nz g m4identity = (g, none) := by
  constructor
  · simp [translate_geometry]
  · simp [transform_geometry]

/-! ## Model of `source/blender/editors/curve/editcurve_paint.cc`:
stroke samples and projection -/

/-- `StrokeElem`: one recorded input point along a drawn stroke. -/
structure StrokeElem where
  mval : ℚ × ℚ
  location_world : V3
  location_local : V3
  normal_world : V3
  normal_local : V3
  pressure : ℚ
deriving DecidableEq, Repr

/-- A zero-initialized `StrokeElem` (`BLI_mempool_calloc`). -/
def strokeElemZero : StrokeElem := ⟨(0, 0), 0, 0, 0, 0, 0⟩

/-- The `project` sub-struct of `CurveDrawData`. -/
structure ProjectState where
  use_plane : Bool
  plane : V4
  use_depth : Bool
  use_offset : Bool
  offset : V3
  surface_offset : ℚ
  use_surface_offset_absolute : Bool
deriving DecidableEq, Repr

/-- `ViewDepths`: dimensions and valid depth range of the cached depth
buffer; the per-pixel samples live behind the external read accessor. -/
structure ViewDepths where
  w : ℕ
  h : ℕ
  depth_range_min : ℚ
  depth_range_max : ℚ
deriving DecidableEq, Repr

/-- The slice of `CurveDrawData` the modelled operations read:
projection configuration, the radius mapping (`cps->radius_min/max`,
the derived range), the edited curve's `bevel_radius`, the cached
depth buffer, and the object's two transform matrices. -/
structure CurveDrawData where
  project : ProjectState
  radius_min : ℚ
  radius_max : ℚ
  radius_range : ℚ
  bevel_radius : ℚ
  depths : Option ViewDepths
  object_to_world : M44
  world_to_object : M44

/-- External `ED_view3d_*` / BLI host functions used by the projection
path, taken as opaque parameters of the embedding. -/
structure ViewOps where
  win_to_3d_on_plane : V4 → ℚ × ℚ → Option V3
  depth_read_cached : ViewDepths → ℤ × ℤ → ℚ
  depth_unproject : ℤ × ℤ → ℚ → Option V3
  depth_read_cached_normal : ℤ × ℤ → Option V3
  win_to_3d : V3 → ℚ × ℚ → V3
  normalize_v3 : V3 → V3

/-- The C cast `uint(i)` applied to a signed int: reduction modulo 2^32,
always non-negative. -/
def ucast (i : ℤ) : ℕ := (i % (2 ^ 32 : ℤ)).toNat

/-- The C cast `int(f)` applied to a float: truncation toward zero. -/
def ctrunc (q : ℚ) : ℤ := if 0 ≤ q then ⌊q⌋ else -⌊-q⌋

/-- `stroke_elem_radius_from_pressure`:
`((pressure * range) + min) * cu->bevel_radius`. -/
def stroke_elem_radius_from_pressure (cdd : CurveDrawData) (pressure : ℚ) : ℚ :=
  (pressure * cdd.radius_range + cdd.radius_min) * cdd.bevel_radius

/-- `stroke_elem_radius`. -/
def stroke_elem_radius (cdd : CurveDrawData) (selem : StrokeElem) : ℚ :=
  stroke_elem_radius_from_pressure cdd selem.pressure

/-- `stroke_elem_pressure_set`: when a non-absolute surface offset is
active and the sample has a (local) normal, re-displace the local
position along the stored normal by the change in radius and recompute
the world position; then store the new pressure. -/
def stroke_elem_pressure_set (cdd : CurveDrawData) (selem : StrokeElem) (pressure : ℚ) :
    StrokeElem :=
  if cdd.project.surface_offset ≠ 0 ∧ cdd.project.use_surface_offset_absolute = false ∧
      selem.normal_local ≠ 0 then
    let adjust := stroke_elem_radius_from_pressure cdd pressure -
      stroke_elem_radius_from_pressure cdd selem.pressure
    let location_local := madd_v3_v3fl selem.location_local selem.normal_local adjust
    let location_world := mul_v3_m4v3 cdd.object_to_world location_local
    { selem with
      location_local := location_local, location_world := location_world,
      pressure := pressure }
  else
    { selem with pressure := pressure }

/-- BLI scalar interpolation on a pair, `interp_v2_v2v2` component:
`(1 - t) * a + t * b`. -/
def interp_f_v (a b t : ℚ) : ℚ := (1 - t) * a + t * b

/-- `stroke_elem_interp`: writes interpolated `mval`, world/local
locations and pressure into the output slot; the slot's normal fields
are left as they were.  Note the C `interpf(a, b, t)` is
`t * a + (1 - t) * b`, so the pressure mixes with swapped weights
relative to the position interpolation. -/
def stroke_elem_interp (slot selem_a selem_b : StrokeElem) (t : ℚ) : StrokeElem :=
  { slot with
    mval := (interp_f_v selem_a.mval.1 selem_b.mval.1 t,
             interp_f_v selem_a.mval.2 selem_b.mval.2 t)
    location_world :=
      ⟨interp_f_v selem_a.location_world.x selem_b.location_world.x t,
       interp_f_v selem_a.location_world.y selem_b.location_world.y t,
       interp_f_v selem_a.location_world.z selem_b.location_world.z t⟩
    location_local :=
      ⟨interp_f_v selem_a.location_local.x selem_b.location_local.x t,
       interp_f_v selem_a.location_local.y selem_b.location_local.y t,
       interp_f_v selem_a.location_local.z selem_b.location_local.z t⟩
    pressure := t * selem_a.pressure + (1 - t) * selem_b.pressure }

/-- `stroke_elem_project`: plane mode intersects the view ray with the
stored plane; depth mode requires the pixel inside the cached buffer
(after the C `uint` cast) and the sampled depth strictly inside the
valid range, then unprojects, optionally displacing along the sampled
surface normal; a successful result is finally shifted by the session
offset when `use_offset` is set.  Returns the world location and the
(possibly zero) world normal. -/
def stroke_elem_project (ops : ViewOps) (cdd : CurveDrawData) (mval_i : ℤ × ℤ)
    (mval_fl : ℚ × ℚ) (surface_offset radius : ℚ) : Option (V3 × V3) :=
  let base : Option (V3 × V3) :=
    if cdd.project.use_plane then
      match ops.win_to_3d_on_plane cdd.project.plane mval_fl with
      | some location => some (location, 0)
      | none => none
    else
      match cdd.depths with
      | some depths =>
        if ucast mval_i.1 < depths.w ∧ ucast mval_i.2 < depths.h then
          let depth := ops.depth_read_cached depths mval_i
          if depths.depth_range_min < depth ∧ depth < depths.depth_range_max then
            match ops.depth_unproject mval_i depth with
            | some location =>
              if surface_offset ≠ 0 then
                let offset : ℚ := if cdd.project.use_surface_offset_absolute then 1 else radius
                match ops.depth_read_cached_normal mval_i with
                | some normal =>
                  some (madd_v3_v3fl location normal (offset * surface_offset), normal)
                | none => some (location, 0)
              else some (location, 0)
            | none => none
          else none
        else none
      | none => none
  base.map (fun r => (if cdd.project.use_offset then r.1 + cdd.project.offset else r.1, r.2))

/-- BLI `mul_transposed_mat3_m4_v3`: apply the transposed upper-left
3x3 block (each result component is the dot product of a column with
the vector). -/
def mul_transposed_mat3_m4_v3 (M : M44) (v : V3) : V3 :=
  ⟨M.cx.x * v.x + M.cx.y * v.y + M.cx.z * v.z,
   M.cy.x * v.x + M.cy.y * v.y + M.cy.z * v.z,
   M.cz.x * v.x + M.cz.y * v.y + M.cz.z * v.z⟩

/-- Result record of `stroke_elem_project_fallback` (the C function
returns `is_depth_found` and writes four out-parameters). -/
structure ProjResult where
  location_world : V3
  location_local : V3
  normal_world : V3
  normal_local : V3
  is_depth_found : Bool
deriving DecidableEq, Repr

/-- `stroke_elem_project_fallback`: on projection failure the world
position is re-projected at the last known valid world depth via
`ED_view3d_win_to_3d` (and the world normal out-parameter is left as
the caller had it); the local position is always the world position
through `world_to_object`; a non-zero world normal is mapped by the
transposed object matrix and renormalized. -/
def stroke_elem_project_fallback (ops : ViewOps) (cdd : CurveDrawData) (mval_i : ℤ × ℤ)
    (mval_fl : ℚ × ℚ) (surface_offset radius : ℚ) (location_fallback_depth : V3)
    (normal_world_prev : V3) : ProjResult :=
  let pr := stroke_elem_project ops cdd mval_i mval_fl surface_offset radius
  let step : Bool × V3 × V3 :=
    match pr with
    | some r => (true, r.1, r.2)
    | none => (false, ops.win_to_3d location_fallback_depth mval_fl, normal_world_prev)
  let location_local := mul_v3_m4v3 cdd.world_to_object step.2.1
  let normal_local :=
    if step.2.2 ≠ 0 then
      ops.normalize_v3 (mul_transposed_mat3_m4_v3 cdd.object_to_world step.2.2)
    else 0
  ⟨step.2.1, location_local, step.2.2, normal_local, step.1⟩

/-- `stroke_elem_project_fallback_elem`: project from the element's own
`mval` (truncated to ints) and radius, writing the four location/normal
fields back into the element. -/
def stroke_elem_project_fallback_elem (ops : ViewOps) (cdd : CurveDrawData)
    (location_fallback_depth : V3) (selem : StrokeElem) : Bool × StrokeElem :=
  let mval_i : ℤ × ℤ := (ctrunc selem.mval.1, ctrunc selem.mval.2)
  let radius := stroke_elem_radius cdd selem
  let r := stroke_elem_project_fallback ops cdd mval_i selem.mval
    cdd.project.surface_offset radius location_fallback_depth selem.normal_world
  (r.is_depth_found,
   { selem with
     location_world := r.location_world, location_local := r.location_local,
     normal_world := r.normal_world, normal_local := r.normal_local })

/-! ### Claims C7 and C8 -/

/-- The `uint` cast comparison implies genuine bounds for realistically
sized coordinates and buffers. -/
theorem ucast_lt_bounds (x : ℤ) (w : ℕ) (hx1 : -(2 ^ 31) ≤ x) (hx2 : x < 2 ^ 31)
    (hw : w ≤ 2 ^ 31) (h : ucast x < w) : 0 ≤ x ∧ x < (w : ℤ) := by
  simp only [ucast] at h
  omega

/-- Claim C7: in depth-buffer mode `stroke_elem_project` succeeds only
if the pixel lies inside the cached buffer and the sampled depth is
strictly inside the valid range; and whenever projection fails,
`stroke_elem_project_fallback` still assigns the world position by
re-projecting the 2D point at the fallback depth, with the local
position derived from it, so every sample resolves to a position. -/
theorem C7_depth_validity_and_fallback (ops : ViewOps) (cdd : CurveDrawData)
    (mval_i : ℤ × ℤ) (mval_fl : ℚ × ℚ) (surface_offset radius : ℚ)
    (location_fallback_depth normal_world_prev : V3)
    (hplane : cdd.project.use_plane = false)
    (hx1 : -(2 ^ 31) ≤ mval_i.1) (hx2 : mval_i.1 < 2 ^ 31)
    (hy1 : -(2 ^ 31) ≤ mval_i.2) (hy2 : mval_i.2 < 2 ^ 31)
    (hwh : ∀ d, cdd.depths = some d → d.w ≤ 2 ^ 31 ∧ d.h ≤ 2 ^ 31) :
    (∀ r, stroke_elem_project ops cdd mval_i mval_fl surface_offset radius = some r →
      ∃ d, cdd.depths = some d ∧
        (0 ≤ mval_i.1 ∧ mval_i.1 < (d.w : ℤ) ∧ 0 ≤ mval_i.2 ∧ mval_i.2 < (d.h : ℤ)) ∧
        d.depth_range_min < ops.depth_read_cached d mval_i ∧
        ops.depth_read_cached d mval_i < d.depth_range_max) ∧
    (stroke_elem_project ops cdd mval_i mval_fl surface_offset radius = none →
      (stroke_elem_project_fallback ops cdd mval_i mval_fl surface_offset radius
          location_fallback_depth normal_world_prev).location_world =
        ops.win_to_3d location_fallback_depth mval_fl ∧
      (stroke_elem_project_fallback ops cdd mval_i mval_fl surface_offset radius
          location_fallback_depth normal_world_prev).location_local =
        mul_v3_m4v3 cdd.world_to_object (ops.win_to_3d location_fallback_depth mval_fl)) := by
  constructor
  · intro r hr
    simp only [stroke_elem_project, hplane, if_false, Bool.false_eq_true] at hr
    cases hd : cdd.depths with
    | none =>
      rw [hd] at hr
      simp at hr
    | some d =>
      rw [hd] at hr
      simp only at hr
      refine ⟨d, rfl, ?_⟩
      by_cases hb : ucast mval_i.1 < d.w ∧ ucast mval_i.2 < d.h
      · rw [if_pos hb] at hr
        by_cases hrange : d.depth_range_min < ops.depth_read_cached d mval_i ∧
            ops.depth_read_cached d mval_i < d.depth_range_max
        · obtain ⟨hw, hh⟩ := hwh d hd
          obtain ⟨hbx, hby⟩ := hb
          obtain ⟨h1, h2⟩ := ucast_lt_bounds mval_i.1 d.w hx1 hx2 hw hbx
          obtain ⟨h3, h4⟩ := ucast_lt_bounds mval_i.2 d.h hy1 hy2 hh hby
          exact ⟨⟨h1, h2, h3, h4⟩, hrange⟩
        · rw [if_neg hrange] at hr
          simp at hr
      · rw [if_neg hb] at hr
        simp at hr
  · intro hnone
    unfold stroke_elem_project_fallback
    rw [hnone]
    exact ⟨rfl, rfl⟩

/-- Fixture: host functions for concrete evaluation (projection always
misses, the fallback re-projection returns its depth point). -/
def opsTest : ViewOps where
  win_to_3d_on_plane := fun _ _ => none
  depth_read_cached := fun _ _ => 2
  depth_unproject := fun _ _ => none
  depth_read_cached_normal := fun _ => none
  win_to_3d := fun loc _ => loc
  normalize_v3 := fun v => v

/-- Fixture: a depth-mode drawing session with identity object
transform and a 10x10 depth buffer with valid range (0, 1). -/
def cddTest : CurveDrawData where
  project := ⟨false, ⟨0, 0, 1, 0⟩, true, false, 0, 0, false⟩
  radius_min := 0
  radius_max := 1
  radius_range := 1
  bevel_radius := 1
  depths := some ⟨10, 10, 0, 1⟩
  object_to_world := m4identity
  world_to_object := m4identity

/-- Witness for C7 at a concrete input: depth 2 is outside (0, 1), so
projection fails and the fallback places the sample at the fallback
depth point. -/
theorem C7_depth_validity_and_fallback_witness :
    cddTest.project.use_plane = false ∧
    ((∀ r, stroke_elem_project opsTest cddTest (3, 4) (3, 4) 0 0 = some r →
      ∃ d, cddTest.depths = some d ∧
        (0 ≤ (3 : ℤ) ∧ (3 : ℤ) < (d.w : ℤ) ∧ 0 ≤ (4 : ℤ) ∧ (4 : ℤ) < (d.h : ℤ)) ∧
        d.depth_range_min < opsTest.depth_read_cached d (3, 4) ∧
        opsTest.depth_read_cached d (3, 4) < d.depth_range_max) ∧
    (stroke_elem_project opsTest cddTest (3, 4) (3, 4) 0 0 = none →
      (stroke_elem_project_fallback opsTest cddTest (3, 4) (3, 4) 0 0
          ⟨5, 6, 7⟩ 0).location_world = opsTest.win_to_3d ⟨5, 6, 7⟩ (3, 4) ∧
      (stroke_elem_project_fallback opsTest cddTest (3, 4) (3, 4) 0 0
          ⟨5, 6, 7⟩ 0).location_local =
        mul_v3_m4v3 cddTest.world_to_object (opsTest.win_to_3d ⟨5, 6, 7⟩ (3, 4)))) :=
  ⟨rfl,
    C7_depth_validity_and_fallback opsTest cddTest (3, 4) (3, 4) 0 0 ⟨5, 6, 7⟩ 0
      rfl (by decide) (by decide) (by decide) (by decide)
      (fun d hd => by cases hd; exact ⟨by decide, by decide⟩)⟩

/-- Applying the identity matrix to a point is the identity. -/
theorem mul_v3_m4v3_identity (v : V3) : mul_v3_m4v3 m4identity v = v := by
  cases v
  simp [mul_v3_m4v3, m4identity]

/-- Claim C8: both sample-mutating operations — pressure edits through
`stroke_elem_pressure_set` and (re)projection through
`stroke_elem_project_fallback_elem` — preserve the invariant that the
sample's world position is the object-to-world transform applied to its
local position, given that the stored matrix pair is mutually inverse
and the invariant held before the pressure edit. -/
theorem C8_world_local_invariant (ops : ViewOps) (cdd : CurveDrawData)
    (selem : StrokeElem) (pressure : ℚ)
    (hinv : ∀ v, mul_v3_m4v3 cdd.object_to_world (mul_v3_m4v3 cdd.world_to_object v) = v)
    (hpre : selem.location_world = mul_v3_m4v3 cdd.object_to_world selem.location_local) :
    ((stroke_elem_pressure_set cdd selem pressure).location_world =
      mul_v3_m4v3 cdd.object_to_world
        (stroke_elem_pressure_set cdd selem pressure).location_local) ∧
    ∀ location_fallback_depth,
      ((stroke_elem_project_fallback_elem ops cdd location_fallback_depth selem).2.location_world =
        mul_v3_m4v3 cdd.object_to_world
          (stroke_elem_project_fallback_elem ops cdd
            location_fallback_depth selem).2.location_local) := by
  constructor
  · simp only [stroke_elem_pressure_set]
    split
    · rfl
    · exact hpre
  · intro location_fallback_depth
    simp only [stroke_elem_project_fallback_elem, stroke_elem_project_fallback]
    exact (hinv _).symm

/-- Witness for C8 at a concrete input: identity transforms, the
all-zero sample, pressure edit to 1/2. -/
theorem C8_world_local_invariant_witness :
    (∀ v, mul_v3_m4v3 cddTest.object_to_world (mul_v3_m4v3 cddTest.world_to_object v) = v) ∧
    ((stroke_elem_pressure_set cddTest strokeElemZero (1 / 2)).location_world =
      mul_v3_m4v3 cddTest.object_to_world
        (stroke_elem_pressure_set cddTest strokeElemZero (1 / 2)).location_local) ∧
    ∀ location_fallback_depth,
      ((stroke_elem_project_fallback_elem opsTest cddTest
          location_fallback_depth strokeElemZero).2.location_world =
        mul_v3_m4v3 cddTest.object_to_world
          (stroke_elem_project_fallback_elem opsTest cddTest
            location_fallback_depth strokeElemZero).2.location_local) :=
  ⟨fun v => by
      simp only [cddTest]
      rw [mul_v3_m4v3_identity, mul_v3_m4v3_identity],
    C8_world_local_invariant opsTest cddTest strokeElemZero (1 / 2)
      (fun v => by
        simp only [cddTest]
        rw [mul_v3_m4v3_identity, mul_v3_m4v3_identity])
      (by
        rw [show cddTest.object_to_world = m4identity from rfl, mul_v3_m4v3_identity]
        rfl)⟩

/-! ## Model of `curve_draw_exec`: poly branch, deduplication, Bézier
branch -/

/-- `BPoint`: one poly-spline control point (`vec[4]`, radius, select
flag). -/
structure BPoint where
  vec : ℚ × ℚ × ℚ × ℚ
  radius : ℚ
  f1 : Bool
deriving DecidableEq, Repr

/-- The `CU_POLY` branch of `curve_draw_exec` (lines 1012-1051): one
`BPoint` per raw stroke sample, in order; the z coordinate is zeroed
for 2D curves, `vec[3] = 1`, every point selected, and the radius is
`pressure * radius_range + radius_min` when pressure radius is in use,
else `cps->radius_max`.  No `bevel_radius` factor appears here. -/
def curve_draw_exec_poly (is_3d use_pressure_radius : Bool)
    (radius_min radius_max : ℚ) (samples : List StrokeElem) : List BPoint :=
  samples.map (fun selem =>
    { vec := (selem.location_local.x, selem.location_local.y,
              if is_3d then selem.location_local.z else 0, 1)
      radius :=
        if use_pressure_radius then
          selem.pressure * (radius_max - radius_min) + radius_min
        else radius_max
      f1 := true })

/-- The double-removal of `curve_draw_exec` (lines 849-854), recursing
with the previously kept row (`memcmp(co, co - dims, ...)`). -/
def remove_doubles_aux {α : Type} [DecidableEq α] (prev : α) : List α → List α
  | [] => []
  | x :: xs =>
    if x = prev then remove_doubles_aux prev xs else x :: remove_doubles_aux x xs

/-- Coalesce consecutive identical entries, keeping the first of each
run (the first row is always kept: `co != coords`). -/
def remove_doubles {α : Type} [DecidableEq α] : List α → List α
  | [] => []
  | x :: xs => x :: remove_doubles_aux x xs

/-- The per-sample coordinate row written into `coords`: the local
position, plus the pressure in the extra channel when
`use_pressure_radius` is set (`coords_indices.radius = 3`). -/
def stroke_feature_vec (use_pressure_radius : Bool) (selem : StrokeElem) : List ℚ :=
  [selem.location_local.x, selem.location_local.y, selem.location_local.z] ++
    (if use_pressure_radius then [selem.pressure] else [])

/-- The deduplicated coordinate array passed to the curve fitter. -/
def stroke_coords (use_pressure_radius : Bool) (samples : List StrokeElem) : List (List ℚ) :=
  remove_doubles (samples.map (stroke_feature_vec use_pressure_radius))

/-- `BezTriple` handle types (`HD_FREE` etc. from DNA). -/
inductive HandleType
  | HD_FREE
  | HD_AUTO
  | HD_VECT
  | HD_ALIGN
deriving DecidableEq, Repr

/-- `BezTriple`: left handle, anchor, right handle, radius, two handle
types and three select flags. -/
structure BezTriple where
  vec0 : V3
  vec1 : V3
  vec2 : V3
  radius : ℚ
  h1 : HandleType
  h2 : HandleType
  f1 : Bool
  f2 : Bool
  f3 : Bool
deriving DecidableEq, Repr

/-- One fitted point as laid out in the returned `cubic_spline` array:
`dims` floats for the left handle, the anchor, the right handle. -/
structure SplinePoint where
  handle_l : List ℚ
  pt : List ℚ
  handle_r : List ℚ
deriving DecidableEq, Repr

/-- Result of the external fit call (`curve_fit_cubic_to_points_fl` or
`curve_fit_cubic_to_points_refit_fl`): integer status, fitted points,
corner indices. -/
structure FitOutput where
  status : ℤ
  cubic_spline : List SplinePoint
  corners_index : List ℕ
deriving DecidableEq, Repr

/-- First three channels of a coordinate row. -/
def v3_of_row (row : List ℚ) : V3 := ⟨row.getD 0 0, row.getD 1 0, row.getD 2 0⟩

/-- The `BezTriple` construction loop after a successful fit (lines
922-945): copy the three point rows, decode the radius from the
pressure channel (`pt[3] * range + min`) or use the constant maximum,
handles `HD_ALIGN`, everything selected. -/
def bezier_points_of_fit (use_pressure_radius : Bool)
    (radius_min radius_range radius_max : ℚ) (spline : List SplinePoint) : List BezTriple :=
  spline.map (fun p =>
    { vec0 := v3_of_row p.handle_l
      vec1 := v3_of_row p.pt
      vec2 := v3_of_row p.handle_r
      radius :=
        if use_pressure_radius then p.pt.getD 3 0 * radius_range + radius_min
        else radius_max
      h1 := HandleType.HD_ALIGN
      h2 := HandleType.HD_ALIGN
      f1 := true
      f2 := true
      f3 := true })

/-- Mark one `BezTriple` as a corner (`bezt->h1 = bezt->h2 = HD_FREE`). -/
def set_free (b : BezTriple) : BezTriple := { b with h1 := HandleType.HD_FREE, h2 := HandleType.HD_FREE }

/-- Apply `set_free` at one index (out-of-range indices, undefined
behaviour in C, are a no-op here). -/
def bezt_set_free_at (pts : List BezTriple) (idx : ℕ) : List BezTriple :=
  match pts[idx]? with
  | some b => pts.set idx (set_free b)
  | none => pts

/-- The slice of `corners_index` that gets tagged (lines 948-954):
`i_start = 0, i_end = len`, narrowed to `1 .. len - 1` when at least
two corners were returned and the fit was not cyclic. -/
def corners_index_range (corners_index : List ℕ) (calc_cyclic : Bool) : List ℕ :=
  if 2 ≤ corners_index.length ∧ calc_cyclic = false then
    (corners_index.drop 1).dropLast
  else corners_index

/-- The corner-tagging second pass (lines 947-960). -/
def apply_corner_handles (pts : List BezTriple) (corners_index : List ℕ)
    (calc_cyclic : Bool) : List BezTriple :=
  (corners_index_range corners_index calc_cyclic).foldl bezt_set_free_at pts

/-- `Nurb` type flag. -/
inductive CurveType
  | CU_BEZIER
  | CU_POLY
deriving DecidableEq, Repr

/-- The slice of `Nurb` the Bézier branch writes. -/
structure Nurb where
  nurb_type : CurveType
  pntsu : ℕ
  bezt : List BezTriple
  bp : List BPoint
  flagu_cyclic : Bool
deriving DecidableEq, Repr

/-- Construction of the Bézier `Nurb` from one fit result (lines
921-1010): on status 0 build and corner-tag the points and transfer
the cyclic calc flag; on any other status the `calloc`-fresh `Nurb`
keeps zero points and no cyclic flag.  `handles_calc` stands for the
external `BKE_nurb_handles_calc`, which recomputes handle positions
in place (it runs on either path). -/
def build_bezier_nurb (handles_calc : List BezTriple → List BezTriple)
    (use_pressure_radius : Bool) (radius_min radius_range radius_max : ℚ)
    (out : FitOutput) (calc_cyclic : Bool) : Nurb :=
  if out.status = 0 then
    let pts := bezier_points_of_fit use_pressure_radius radius_min radius_range radius_max
      out.cubic_spline
    { nurb_type := CurveType.CU_BEZIER
      pntsu := out.cubic_spline.length
      bezt := handles_calc (apply_corner_handles pts out.corners_index calc_cyclic)
      bp := []
      flagu_cyclic := calc_cyclic }
  else
    { nurb_type := CurveType.CU_BEZIER
      pntsu := 0
      bezt := handles_calc []
      bp := []
      flagu_cyclic := false }

/-- The `CU_BEZIER` branch of `curve_draw_exec` (lines 812-1010):
dedupe the coordinate rows, derive the cyclic calc flag from the
deduplicated length (`stroke_len > 2 && use_cyclic`), call the fitter,
build the `Nurb`.  The fit library (and the optional
`curve_fit_corners_detect_fl` preprocessing feeding it) is the
parameter `fitfn`, receiving the coordinate rows and the cyclic calc
flag. -/
def curve_draw_exec_bezier_nurb (fitfn : List (List ℚ) → Bool → FitOutput)
    (handles_calc : List BezTriple → List BezTriple)
    (use_pressure_radius use_cyclic : Bool)
    (radius_min radius_range radius_max : ℚ) (samples : List StrokeElem) : Nurb :=
  let coords := stroke_coords use_pressure_radius samples
  let calc_cyclic := use_cyclic && decide (coords.length > 2)
  let out := fitfn coords calc_cyclic
  build_bezier_nurb handles_calc use_pressure_radius radius_min radius_range radius_max
    out calc_cyclic

/-- `curve_draw_exec`, Bézier case, effect on the destination spline
list: the constructed `Nurb` is appended unconditionally
(`BLI_addtail(nurblist, nu)`, line 1053, runs on every path). -/
def curve_draw_exec_bezier (fitfn : List (List ℚ) → Bool → FitOutput)
    (handles_calc : List BezTriple → List BezTriple)
    (use_pressure_radius use_cyclic : Bool)
    (radius_min radius_range radius_max : ℚ) (samples : List StrokeElem)
    (nurblist : List Nurb) : List Nurb :=
  nurblist ++
    [curve_draw_exec_bezier_nurb fitfn handles_calc use_pressure_radius use_cyclic
      radius_min radius_range radius_max samples]

/-! ### Claim C2 -/

/-- Counterexample to claim C2 as stated: with `bevel_radius = 2`,
`radius_min = 0`, `radius_max = 1` and pressure 1/2, the poly branch
stores radius 1/2, while the Radius Resolver formula
(`stroke_elem_radius_from_pressure`, which multiplies by the bevel
scale) gives 1. -/
theorem C2_poly_radius_counterexample :
    (curve_draw_exec_poly true true 0 1 [{ strokeElemZero with pressure := 1/2 }]).map
        (fun bp => bp.radius) ≠
      [stroke_elem_radius_from_pressure { cddTest with bevel_radius := 2 } (1/2)] := by
  norm_num [curve_draw_exec_poly, stroke_elem_radius_from_pressure, cddTest]

/-- Claim C2 (amended): the poly branch emits exactly one control point
per raw (non-deduplicated) sample, in input order, each carrying the
sample's local position and radius `pressure * (max - min) + min` when
pressure radius is in use (else the constant maximum); the bevel scale
is not applied. -/
theorem C2_poly_one_point_per_sample (is_3d use_pressure_radius : Bool)
    (radius_min radius_max : ℚ) (samples : List StrokeElem) :
    (curve_draw_exec_poly is_3d use_pressure_radius radius_min radius_max samples).length =
      samples.length ∧
    ∀ i : ℕ,
      ((curve_draw_exec_poly is_3d use_pressure_radius radius_min radius_max samples)[i]?.map
          (fun bp => (bp.vec, bp.radius))) =
        samples[i]?.map (fun selem =>
          ((selem.location_local.x, selem.location_local.y,
            if is_3d then selem.location_local.z else 0, (1 : ℚ)),
           if use_pressure_radius then
             selem.pressure * (radius_max - radius_min) + radius_min
           else radius_max)) := by
  constructor
  · simp [curve_draw_exec_poly]
  · intro i
    simp only [curve_draw_exec_poly, List.getElem?_map, Option.map_map]
    cases samples[i]? with
    | none => rfl
    | some s => rfl

/-! ### Claim C6 -/

/-- Every row kept by `remove_doubles_aux` differs from the row kept
just before it. -/
theorem remove_doubles_aux_chain {α : Type} [DecidableEq α] (l : List α) :
    ∀ prev : α, List.Chain (· ≠ ·) prev (remove_doubles_aux prev l) := by
  induction l with
  | nil => intro prev; exact List.Chain.nil
  | cons x xs ih =>
    intro prev
    simp only [remove_doubles_aux]
    split
    · exact ih prev
    · rename_i h
      exact List.Chain.cons (fun he => h he.symm) (ih x)

/-- The deduplicated list has no two adjacent equal entries. -/
theorem remove_doubles_chain {α : Type} [DecidableEq α] (l : List α) :
    (remove_doubles l).Chain' (· ≠ ·) := by
  cases l with
  | nil => exact List.chain'_nil
  | cons x xs => exact remove_doubles_aux_chain xs x

/-- Inserting an exact duplicate right after its original does not
change the deduplicated suffix. -/
theorem remove_doubles_aux_dup {α : Type} [DecidableEq α] (a : α) (l2 : List α) :
    ∀ (l1 : List α) (prev : α),
      remove_doubles_aux prev (l1 ++ a :: a :: l2) =
        remove_doubles_aux prev (l1 ++ a :: l2) := by
  intro l1
  induction l1 with
  | nil =>
    intro prev
    by_cases h : a = prev <;> simp [remove_doubles_aux, h]
  | cons x xs ih =>
    intro prev
    by_cases h : x = prev <;> simp [remove_doubles_aux, h, ih]

/-- Inserting an exact duplicate right after its original does not
change the deduplicated list. -/
theorem remove_doubles_dup {α : Type} [DecidableEq α] (l1 : List α) (a : α) (l2 : List α) :
    remove_doubles (l1 ++ a :: a :: l2) = remove_doubles (l1 ++ a :: l2) := by
  cases l1 with
  | nil => simp [remove_doubles, remove_doubles_aux]
  | cons x xs => simp [remove_doubles, remove_doubles_aux_dup a l2 xs]

/-- Duplicate-insertion invariance of the fitter's coordinate array. -/
theorem stroke_coords_dup (b : Bool) (l1 : List StrokeElem) (a : StrokeElem)
    (l2 : List StrokeElem) :
    stroke_coords b (l1 ++ a :: a :: l2) = stroke_coords b (l1 ++ a :: l2) := by
  simp only [stroke_coords, List.map_append, List.map_cons]
  exact remove_doubles_dup _ _ _

/-- Claim C6: the coordinate array passed to the fitter never holds two
adjacent identical rows; inserting an exact duplicate adjacent to its
original leaves the coordinate array unchanged; hence the whole Bézier
branch (for any fitter function) produces identical output with and
without the duplicate. -/
theorem C6_dedup_idempotence :
    (∀ (b : Bool) (samples : List StrokeElem),
      (stroke_coords b samples).Chain' (· ≠ ·)) ∧
    (∀ (b : Bool) (l1 : List StrokeElem) (a : StrokeElem) (l2 : List StrokeElem),
      stroke_coords b (l1 ++ a :: a :: l2) = stroke_coords b (l1 ++ a :: l2)) ∧
    (∀ (fitfn : List (List ℚ) → Bool → FitOutput)
        (handles_calc : List BezTriple → List BezTriple)
        (upr uc : Bool) (rmin rrange rmax : ℚ)
        (l1 : List StrokeElem) (a : StrokeElem) (l2 : List StrokeElem)
        (nurblist : List Nurb),
      curve_draw_exec_bezier fitfn handles_calc upr uc rmin rrange rmax
          (l1 ++ a :: a :: l2) nurblist =
        curve_draw_exec_bezier fitfn handles_calc upr uc rmin rrange rmax
          (l1 ++ a :: l2) nurblist) := by
  refine ⟨fun b samples => remove_doubles_chain _,
    fun b l1 a l2 => stroke_coords_dup b l1 a l2, ?_⟩
  intro fitfn handles_calc upr uc rmin rrange rmax l1 a l2 nurblist
  simp only [curve_draw_exec_bezier, curve_draw_exec_bezier_nurb, stroke_coords_dup]

/-! ### Claim C1 -/

/-- A fitter that always reports failure (non-zero status). -/
def fitFail : List (List ℚ) → Bool → FitOutput := fun _ _ => ⟨1, [], []⟩

/-- Counterexample to claim C1 as stated: with a failing fit the spline
list still grows — the freshly allocated `Nurb` is appended by the
unconditional `BLI_addtail` — so its count does not stay unchanged. -/
theorem C1_fit_failure_counterexample :
    (fitFail (stroke_coords true [strokeElemZero]) false).status ≠ 0 ∧
    (curve_draw_exec_bezier fitFail id true false 0 1 1 [strokeElemZero] []).length ≠
      ([] : List Nurb).length := by
  constructor
  · norm_num [fitFail]
  · simp [curve_draw_exec_bezier]

/-- Claim C1 (amended): when the fit call returns a non-zero status no
control points are created — the appended `Nurb` has `pntsu = 0`, an
empty point list and no cyclic flag — but the spline list count still
increases by exactly one, because the allocated `Nurb` is appended
unconditionally.  The external `BKE_nurb_handles_calc` is assumed
length-preserving. -/
theorem C1_fit_failure_containment (fitfn : List (List ℚ) → Bool → FitOutput)
    (handles_calc : List BezTriple → List BezTriple)
    (upr uc : Bool) (rmin rrange rmax : ℚ)
    (samples : List StrokeElem) (nurblist : List Nurb)
    (hlen : ∀ l, (handles_calc l).length = l.length)
    (hst : (fitfn (stroke_coords upr samples)
        (uc && decide ((stroke_coords upr samples).length > 2))).status ≠ 0) :
    (curve_draw_exec_bezier fitfn handles_calc upr uc rmin rrange rmax
        samples nurblist).length = nurblist.length + 1 ∧
    (curve_draw_exec_bezier fitfn handles_calc upr uc rmin rrange rmax
        samples nurblist).getLast? =
      some { nurb_type := CurveType.CU_BEZIER, pntsu := 0, bezt := [], bp := [],
             flagu_cyclic := false } := by
  have hnil : handles_calc [] = [] :=
    List.length_eq_zero.mp (by rw [hlen]; rfl)
  constructor
  · simp [curve_draw_exec_bezier]
  · simp only [curve_draw_exec_bezier, curve_draw_exec_bezier_nurb, build_bezier_nurb,
      if_neg hst, List.getLast?_concat, hnil]

/-- Witness for C1 at a concrete input: the always-failing fitter on a
one-sample stroke and an empty spline list. -/
theorem C1_fit_failure_containment_witness :
    (∀ l : List BezTriple, (id l).length = l.length) ∧
    (fitFail (stroke_coords true [strokeElemZero])
        (false && decide ((stroke_coords true [strokeElemZero]).length > 2))).status ≠ 0 ∧
    ((curve_draw_exec_bezier fitFail id true false 0 1 1 [strokeElemZero] []).length =
        ([] : List Nurb).length + 1 ∧
      (curve_draw_exec_bezier fitFail id true false 0 1 1 [strokeElemZero] []).getLast? =
        some { nurb_type := CurveType.CU_BEZIER, pntsu := 0, bezt := [], bp := [],
               flagu_cyclic := false }) :=
  ⟨fun _ => rfl, by norm_num [fitFail],
    C1_fit_failure_containment fitFail id true false 0 1 1 [strokeElemZero] []
      (fun _ => rfl) (by norm_num [fitFail])⟩

/-! ### Claim C4 -/

/-- Setting a point free twice is the same as once. -/
theorem set_free_set_free (b : BezTriple) : set_free (set_free b) = set_free b := rfl

/-- Pointwise effect of one corner-tagging step. -/
theorem bezt_set_free_at_getElem (pts : List BezTriple) (c j : ℕ) :
    (bezt_set_free_at pts c)[j]? =
      if c = j then (pts[j]?).map set_free else pts[j]? := by
  unfold bezt_set_free_at
  cases hc : pts[c]? with
  | none =>
    by_cases h : c = j
    · subst h
      rw [if_pos rfl, hc]
      rfl
    · rw [if_neg h]
  | some b =>
    have hlt : c < pts.length := by
      by_contra hh
      rw [List.getElem?_eq_none (by omega)] at hc
      exact Option.noConfusion hc
    rw [List.getElem?_set]
    by_cases h : c = j
    · subst h
      rw [if_pos rfl, if_pos rfl, if_pos hlt, hc]
      rfl
    · rw [if_neg h, if_neg h]

/-- Pointwise effect of the whole corner-tagging fold. -/
theorem foldl_set_free_getElem (idxs : List ℕ) :
    ∀ (pts : List BezTriple) (j : ℕ),
      (idxs.foldl bezt_set_free_at pts)[j]? =
        if j ∈ idxs then (pts[j]?).map set_free else pts[j]? := by
  induction idxs with
  | nil => intro pts j; simp
  | cons c rest ih =>
    intro pts j
    simp only [List.foldl_cons, List.mem_cons]
    rw [ih, bezt_set_free_at_getElem]
    by_cases hr : j ∈ rest
    · rw [if_pos hr, if_pos (Or.inr hr)]
      by_cases hc : c = j
      · rw [if_pos hc]
        cases pts[j]? with
        | none => rfl
        | some b => rfl
      · rw [if_neg hc]
    · rw [if_neg hr]
      by_cases hc : c = j
      · rw [if_pos hc, if_pos (Or.inl hc.symm)]
      · rw [if_neg hc, if_neg (fun hor => hor.elim (fun h1 => hc h1.symm) hr)]

/-- Claim C4: after a successful fit every fitted point carries handle
types `(ALIGN, ALIGN)`, except points whose index lies in the applied
corner-index slice — the whole returned list when the fit was cyclic,
the list with its first and last entries dropped when non-cyclic and at
least two corner indices were returned — which carry `(FREE, FREE)`.
The external `BKE_nurb_handles_calc` is assumed to preserve handle
types. -/
theorem C4_corner_handle_types (handles_calc : List BezTriple → List BezTriple)
    (use_pressure_radius : Bool) (radius_min radius_range radius_max : ℚ)
    (out : FitOutput) (calc_cyclic : Bool)
    (hht : ∀ (l : List BezTriple) (j : ℕ),
      ((handles_calc l)[j]?).map (fun b => (b.h1, b.h2)) =
        (l[j]?).map (fun b => (b.h1, b.h2)))
    (hst : out.status = 0) (j : ℕ) (hj : j < out.cubic_spline.length) :
    (((build_bezier_nurb handles_calc use_pressure_radius radius_min radius_range radius_max
          out calc_cyclic).bezt[j]?).map (fun b => (b.h1, b.h2))) =
      some
        (if j ∈ (if 2 ≤ out.corners_index.length ∧ calc_cyclic = false then
                  (out.corners_index.drop 1).dropLast
                 else out.corners_index) then
          (HandleType.HD_FREE, HandleType.HD_FREE)
         else (HandleType.HD_ALIGN, HandleType.HD_ALIGN)) := by
  simp only [build_bezier_nurb, if_pos hst]
  rw [hht]
  simp only [apply_corner_handles, corners_index_range]
  rw [foldl_set_free_getElem]
  have hj' : j < (bezier_points_of_fit use_pressure_radius radius_min radius_range radius_max
      out.cubic_spline).length := by
    simpa [bezier_points_of_fit] using hj
  obtain ⟨b, hb⟩ : ∃ b, (bezier_points_of_fit use_pressure_radius radius_min radius_range
      radius_max out.cubic_spline)[j]? = some b :=
    ⟨_, List.getElem?_eq_getElem hj'⟩
  have hb12 : b.h1 = HandleType.HD_ALIGN ∧ b.h2 = HandleType.HD_ALIGN := by
    simp only [bezier_points_of_fit, List.getElem?_map] at hb
    cases hcs : out.cubic_spline[j]? with
    | none =>
      rw [hcs] at hb
      simp at hb
    | some p =>
      rw [hcs] at hb
      simp only [Option.map_some', Option.some.injEq] at hb
      rw [← hb]
      exact ⟨rfl, rfl⟩
  rw [hb]
  by_cases hmem : j ∈ (if 2 ≤ out.corners_index.length ∧ calc_cyclic = false then
      (out.corners_index.drop 1).dropLast else out.corners_index)
  · rw [if_pos hmem, if_pos hmem]
    rfl
  · rw [if_neg hmem, if_neg hmem]
    simp [hb12.1, hb12.2]

/-- Witness for C4 at a concrete input: three fitted points, corner
indices `[0, 1, 2]`, non-cyclic fit, identity `handles_calc`; the
middle point ends up free. -/
theorem C4_corner_handle_types_witness :
    (∀ (l : List BezTriple) (j : ℕ),
      ((id l)[j]?).map (fun b => (b.h1, b.h2)) = (l[j]?).map (fun b => (b.h1, b.h2))) ∧
    (FitOutput.mk 0 [⟨[], [], []⟩, ⟨[], [], []⟩, ⟨[], [], []⟩] [0, 1, 2]).status = 0 ∧
    (1 : ℕ) < (FitOutput.mk 0 [⟨[], [], []⟩, ⟨[], [], []⟩, ⟨[], [], []⟩] [0, 1, 2]).cubic_spline.length ∧
    (((build_bezier_nurb id true 0 1 1
          (FitOutput.mk 0 [⟨[], [], []⟩, ⟨[], [], []⟩, ⟨[], [], []⟩] [0, 1, 2])
          false).bezt[1]?).map (fun b => (b.h1, b.h2))) =
      some
        (if (1 : ℕ) ∈ (if 2 ≤ (FitOutput.mk 0
                [⟨[], [], []⟩, ⟨[], [], []⟩, ⟨[], [], []⟩] [0, 1, 2]).corners_index.length ∧
                (false : Bool) = false then
              (((FitOutput.mk 0 [⟨[], [], []⟩, ⟨[], [], []⟩, ⟨[], [], []⟩]
                [0, 1, 2]).corners_index.drop 1)).dropLast
             else (FitOutput.mk 0 [⟨[], [], []⟩, ⟨[], [], []⟩, ⟨[], [], []⟩]
                [0, 1, 2]).corners_index) then
          (HandleType.HD_FREE, HandleType.HD_FREE)
         else (HandleType.HD_ALIGN, HandleType.HD_ALIGN)) :=
  ⟨fun _ _ => rfl, rfl, by norm_num,
    C4_corner_handle_types id true 0 1 1
      (FitOutput.mk 0 [⟨[], [], []⟩, ⟨[], [], []⟩, ⟨[], [], []⟩] [0, 1, 2]) false
      (fun _ _ => rfl) rfl 1 (by norm_num)⟩

/-! ## Model of `curve_draw_event_add` substep synthesis -/

/-- `STROKE_SAMPLE_DIST_MAX_PX` (3 pixels). -/
def STROKE_SAMPLE_DIST_MAX_PX : ℕ := 3

/-- Exact `ceil(sqrt(q))` for a rational `q` (the C code computes
`ceil(sqrt(double(len_sq)))` in real arithmetic). -/
def ceilSqrt (q : ℚ) : ℕ :=
  let n := Nat.sqrt ⌈q⌉₊
  if ((n : ℚ) * n) < q then n + 1 else n

/-- `ceilSqrt q` squared dominates `q`. -/
theorem ceilSqrt_le_sq (q : ℚ) (hq : 0 ≤ q) : q ≤ ((ceilSqrt q : ℕ) : ℚ) ^ 2 := by
  simp only [ceilSqrt]
  have h1 : q ≤ ((⌈q⌉₊ : ℕ) : ℚ) := Nat.le_ceil q
  have h2 : ⌈q⌉₊ < (Nat.sqrt ⌈q⌉₊ + 1) * (Nat.sqrt ⌈q⌉₊ + 1) := Nat.lt_succ_sqrt ⌈q⌉₊
  have h2' : ((⌈q⌉₊ : ℕ) : ℚ) <
      (((Nat.sqrt ⌈q⌉₊ : ℕ) : ℚ) + 1) * (((Nat.sqrt ⌈q⌉₊ : ℕ) : ℚ) + 1) := by
    have := (Nat.cast_lt (α := ℚ)).mpr h2
    push_cast at this
    linarith [this]
  split
  · push_cast
    nlinarith [h1, h2']
  · rename_i h
    push_neg at h
    push_cast
    nlinarith [h]

/-- `ceilSqrt q` is the least natural whose square dominates `q`. -/
theorem ceilSqrt_min (q : ℚ) (hq : 0 ≤ q) (m : ℕ) (hm : q ≤ ((m : ℕ) : ℚ) ^ 2) :
    ceilSqrt q ≤ m := by
  simp only [ceilSqrt]
  have hle : ((Nat.sqrt ⌈q⌉₊ : ℕ) : ℚ) * (Nat.sqrt ⌈q⌉₊ : ℕ) ≤ ((⌈q⌉₊ : ℕ) : ℚ) := by
    exact_mod_cast Nat.sqrt_le ⌈q⌉₊
  have hceil : ((⌈q⌉₊ : ℕ) : ℚ) < q + 1 := Nat.ceil_lt_add_one hq
  split
  · rename_i h
    by_contra hc
    push_neg at hc
    have hmn : m ≤ Nat.sqrt ⌈q⌉₊ := Nat.lt_succ_iff.mp hc
    have hmn' : ((m : ℕ) : ℚ) ≤ (Nat.sqrt ⌈q⌉₊ : ℕ) := by exact_mod_cast hmn
    have hm0 : (0 : ℚ) ≤ ((m : ℕ) : ℚ) := by positivity
    nlinarith [hm, h, hmn', hm0]
  · rename_i h
    push_neg at h
    by_contra hc
    push_neg at hc
    have hmn : m + 1 ≤ Nat.sqrt ⌈q⌉₊ := hc
    have hmn' : ((m : ℕ) : ℚ) + 1 ≤ (Nat.sqrt ⌈q⌉₊ : ℕ) := by exact_mod_cast hmn
    have hm0 : (0 : ℚ) ≤ ((m : ℕ) : ℚ) := by positivity
    nlinarith [hm, hle, hceil, hmn', hm0]

/-- Uniqueness principle for concrete `ceilSqrt` evaluations. -/
theorem ceilSqrt_eq_of (q : ℚ) (hq : 0 ≤ q) (m : ℕ) (h1 : q ≤ ((m : ℕ) : ℚ) ^ 2)
    (h2 : ∀ k : ℕ, q ≤ ((k : ℕ) : ℚ) ^ 2 → m ≤ k) : ceilSqrt q = m :=
  le_antisymm (ceilSqrt_min q hq m h1) (h2 _ (ceilSqrt_le_sq q hq))

theorem ceilSqrt_sixteen : ceilSqrt 16 = 4 := by
  refine ceilSqrt_eq_of 16 (by norm_num) 4 (by norm_num) ?_
  intro k hk
  by_contra hc
  push_neg at hc
  have hk3 : ((k : ℕ) : ℚ) ≤ 3 := by exact_mod_cast Nat.lt_succ_iff.mp hc
  have hk0 : (0 : ℚ) ≤ ((k : ℕ) : ℚ) := by positivity
  nlinarith [hk]

theorem ceilSqrt_thirtysix : ceilSqrt 36 = 6 := by
  refine ceilSqrt_eq_of 36 (by norm_num) 6 (by norm_num) ?_
  intro k hk
  by_contra hc
  push_neg at hc
  have hk5 : ((k : ℕ) : ℚ) ≤ 5 := by exact_mod_cast Nat.lt_succ_iff.mp hc
  have hk0 : (0 : ℚ) ≤ ((k : ℕ) : ℚ) := by positivity
  nlinarith [hk]

theorem three_le_ceilSqrt (q : ℚ) (h9 : (9 : ℚ) ≤ q) : 3 ≤ ceilSqrt q := by
  by_contra hc
  push_neg at hc
  have h1 : q ≤ ((ceilSqrt q : ℕ) : ℚ) ^ 2 := ceilSqrt_le_sq q (by linarith)
  have h2 : ((ceilSqrt q : ℕ) : ℚ) ≤ 2 := by exact_mod_cast Nat.lt_succ_iff.mp hc
  have h0 : (0 : ℚ) ≤ ((ceilSqrt q : ℕ) : ℚ) := by positivity
  nlinarith

/-- One iteration of the substep loop in `curve_draw_event_add` (lines
492-505): interpolate into the current pool slot at `t = i / n`,
re-project it through the full fallback projector, update the running
`location_world_valid` only when the raw sample used the fallback but
this substep found genuine depth, and allocate a fresh zeroed slot. -/
def curve_draw_event_add_substep_step (ops : ViewOps) (cdd : CurveDrawData)
    (prev target : StrokeElem) (is_depth_found : Bool) (n : ℕ)
    (acc : List StrokeElem × V3 × StrokeElem) (i : ℕ) :
    List StrokeElem × V3 × StrokeElem :=
  let selem_new := stroke_elem_interp acc.2.2 prev target ((i : ℚ) / (n : ℚ))
  let pr := stroke_elem_project_fallback_elem ops cdd acc.2.1 selem_new
  let lwv := if is_depth_found = false ∧ pr.1 = true then pr.2.location_world else acc.2.1
  (acc.1 ++ [pr.2], lwv, strokeElemZero)

/-- The substep portion of `curve_draw_event_add` (lines 486-509),
entered when substepping is on and a previous sample exists.  `prev` is
`cdd->prev.selem`, `target` the freshly projected raw sample (its pool
slot is reused as the first interpolation slot, and a copy
`selem_target` is written into the final slot), `is_depth_found` the
raw sample's projection flag, `lwv0` the incoming
`cdd->prev.location_world_valid` and `len_sq` the squared screen
distance to the previous raw sample.  Returns the samples occupying
the pool in place of the raw sample, and the final
`location_world_valid`. -/
def curve_draw_event_add_substeps (ops : ViewOps) (cdd : CurveDrawData)
    (prev target : StrokeElem) (is_depth_found : Bool) (lwv0 : V3) (len_sq : ℚ) :
    List StrokeElem × V3 :=
  if ((STROKE_SAMPLE_DIST_MAX_PX : ℚ) * (STROKE_SAMPLE_DIST_MAX_PX : ℚ)) ≤ len_sq then
    let n := ceilSqrt len_sq / STROKE_SAMPLE_DIST_MAX_PX
    let out := (List.range' 1 (n - 1)).foldl
      (curve_draw_event_add_substep_step ops cdd prev target is_depth_found n)
      ([], lwv0, target)
    (out.1 ++ [target], out.2.1)
  else
    ([target], lwv0)

/-! ### Claim C3 -/

/-- Re-projection does not touch the screen position. -/
theorem stroke_elem_project_fallback_elem_mval (ops : ViewOps) (cdd : CurveDrawData)
    (lwv : V3) (s : StrokeElem) :
    ((stroke_elem_project_fallback_elem ops cdd lwv s).2).mval = s.mval := rfl

/-- The interpolated slot's screen position. -/
theorem stroke_elem_interp_mval (slot a b : StrokeElem) (t : ℚ) :
    (stroke_elem_interp slot a b t).mval =
      (interp_f_v a.mval.1 b.mval.1 t, interp_f_v a.mval.2 b.mval.2 t) := rfl

/-- Screen positions produced by the substep fold: one interpolation per
loop index, independent of the threaded depth state and pool slots. -/
theorem substep_fold_mvals (ops : ViewOps) (cdd : CurveDrawData)
    (prev target : StrokeElem) (is_depth_found : Bool) (n : ℕ) :
    ∀ (ct start : ℕ) (elems : List StrokeElem) (lwv : V3) (slot : StrokeElem),
      ((List.range' start ct).foldl
          (curve_draw_event_add_substep_step ops cdd prev target is_depth_found n)
          (elems, lwv, slot)).1.map (fun s => s.mval) =
        elems.map (fun s => s.mval) ++
          (List.range' start ct).map (fun (i : ℕ) =>
            (interp_f_v prev.mval.1 target.mval.1 ((i : ℚ) / (n : ℚ)),
             interp_f_v prev.mval.2 target.mval.2 ((i : ℚ) / (n : ℚ)))) := by
  intro ct
  induction ct with
  | zero =>
    intro start elems lwv slot
    simp [List.range']
  | succ k ih =>
    intro start elems lwv slot
    rw [List.range'_succ]
    simp only [List.foldl_cons, List.map_cons]
    simp only [curve_draw_event_add_substep_step]
    rw [ih]
    simp only [List.map_append, List.map_cons, List.map_nil, List.append_assoc,
      stroke_elem_project_fallback_elem_mval, stroke_elem_interp_mval,
      List.singleton_append]

/-- Claim C3 (amended): when the squared screen distance reaches the
threshold `3^2`, with `n = ceilSqrt d2 / 3` (integer floor division,
not ceiling division), the pool receives exactly `n - 1` synthesized
intermediates followed by the raw target sample; each intermediate's
screen position is interpolated on the segment between the two raw
samples at parameter `t = i / n`, the parameters are strictly
increasing and lie in `(0, 1)`.  Below the threshold no substeps are
inserted. -/
theorem C3_substep_interpolation (ops : ViewOps) (cdd : CurveDrawData)
    (prev target : StrokeElem) (is_depth_found : Bool) (lwv0 : V3) (len_sq : ℚ) :
    (((STROKE_SAMPLE_DIST_MAX_PX : ℚ) * STROKE_SAMPLE_DIST_MAX_PX) ≤ len_sq →
      (curve_draw_event_add_substeps ops cdd prev target is_depth_found lwv0
          len_sq).1.map (fun s => s.mval) =
        (List.range' 1 (ceilSqrt len_sq / STROKE_SAMPLE_DIST_MAX_PX - 1)).map (fun (i : ℕ) =>
          (interp_f_v prev.mval.1 target.mval.1
            ((i : ℚ) / ((ceilSqrt len_sq / STROKE_SAMPLE_DIST_MAX_PX : ℕ) : ℚ)),
           interp_f_v prev.mval.2 target.mval.2
            ((i : ℚ) / ((ceilSqrt len_sq / STROKE_SAMPLE_DIST_MAX_PX : ℕ) : ℚ)))) ++
          [target.mval] ∧
      (curve_draw_event_add_substeps ops cdd prev target is_depth_found lwv0
          len_sq).1.length =
        ceilSqrt len_sq / STROKE_SAMPLE_DIST_MAX_PX ∧
      (∀ i ∈ List.range' 1 (ceilSqrt len_sq / STROKE_SAMPLE_DIST_MAX_PX - 1),
        0 < (i : ℚ) / ((ceilSqrt len_sq / STROKE_SAMPLE_DIST_MAX_PX : ℕ) : ℚ) ∧
        (i : ℚ) / ((ceilSqrt len_sq / STROKE_SAMPLE_DIST_MAX_PX : ℕ) : ℚ) < 1) ∧
      ((List.range' 1 (ceilSqrt len_sq / STROKE_SAMPLE_DIST_MAX_PX - 1)).map (fun (i : ℕ) =>
        (i : ℚ) / ((ceilSqrt len_sq / STROKE_SAMPLE_DIST_MAX_PX : ℕ) : ℚ))).Pairwise
        (· < ·)) ∧
    (len_sq < (STROKE_SAMPLE_DIST_MAX_PX : ℚ) * STROKE_SAMPLE_DIST_MAX_PX →
      curve_draw_event_add_substeps ops cdd prev target is_depth_found lwv0 len_sq =
        ([target], lwv0)) := by
  constructor
  · intro h9
    have h9' : (9 : ℚ) ≤ len_sq := by
      have : ((STROKE_SAMPLE_DIST_MAX_PX : ℚ) * STROKE_SAMPLE_DIST_MAX_PX) = 9 := by
        norm_num [STROKE_SAMPLE_DIST_MAX_PX]
      linarith [h9, this.le, this.ge]
    have hc3 : 3 ≤ ceilSqrt len_sq := three_le_ceilSqrt len_sq h9'
    have hn1 : 1 ≤ ceilSqrt len_sq / STROKE_SAMPLE_DIST_MAX_PX := by
      rw [Nat.le_div_iff_mul_le (by norm_num [STROKE_SAMPLE_DIST_MAX_PX])]
      simpa [STROKE_SAMPLE_DIST_MAX_PX] using hc3
    have hn0 : (0 : ℚ) < ((ceilSqrt len_sq / STROKE_SAMPLE_DIST_MAX_PX : ℕ) : ℚ) := by
      exact_mod_cast Nat.lt_of_lt_of_le Nat.zero_lt_one hn1
    have hmain : (curve_draw_event_add_substeps ops cdd prev target is_depth_found lwv0
        len_sq).1.map (fun s => s.mval) =
        (List.range' 1 (ceilSqrt len_sq / STROKE_SAMPLE_DIST_MAX_PX - 1)).map (fun (i : ℕ) =>
          (interp_f_v prev.mval.1 target.mval.1
            ((i : ℚ) / ((ceilSqrt len_sq / STROKE_SAMPLE_DIST_MAX_PX : ℕ) : ℚ)),
           interp_f_v prev.mval.2 target.mval.2
            ((i : ℚ) / ((ceilSqrt len_sq / STROKE_SAMPLE_DIST_MAX_PX : ℕ) : ℚ)))) ++
          [target.mval] := by
      simp only [curve_draw_event_add_substeps, if_pos h9]
      rw [List.map_append]
      rw [substep_fold_mvals]
      simp
    refine ⟨hmain, ?_, ?_, ?_⟩
    · have hlen := congrArg List.length hmain
      simp only [List.length_map, List.length_append, List.length_range',
        List.length_cons, List.length_nil] at hlen
      omega
    · intro i hi
      rw [List.mem_range'_1] at hi
      have hi1 : (0 : ℚ) < (i : ℚ) := by exact_mod_cast hi.1
      have hi2 : (i : ℚ) < ((ceilSqrt len_sq / STROKE_SAMPLE_DIST_MAX_PX : ℕ) : ℚ) := by
        exact_mod_cast (by omega : i < ceilSqrt len_sq / STROKE_SAMPLE_DIST_MAX_PX)
      exact ⟨div_pos hi1 hn0, (div_lt_one hn0).mpr hi2⟩
    · refine List.Pairwise.map _ ?_ (List.pairwise_lt_range' 1 _)
      intro a b hab
      exact div_lt_div_of_pos_right (by exact_mod_cast hab) hn0
  · intro hlt
    simp only [curve_draw_event_add_substeps, if_neg (not_le.mpr hlt)]

/-- Counterexample to claim C3 as stated: at squared distance 16 (which
meets the threshold `16 ≥ 9`) the code performs `ceil(sqrt(16)) / 3 =
4 / 3 = 1` with integer floor division and inserts `1 - 1 = 0`
intermediates, while the claimed ceiling-division formula
`ceil(4 / 3) - 1 = 1` demands one intermediate. -/
theorem C3_substep_count_counterexample :
    ((STROKE_SAMPLE_DIST_MAX_PX : ℚ) * STROKE_SAMPLE_DIST_MAX_PX ≤ 16) ∧
    ¬(((curve_draw_event_add_substeps opsTest cddTest strokeElemZero
          { strokeElemZero with mval := (4, 0) } false 0 16).1.length - 1) =
        (ceilSqrt 16 + STROKE_SAMPLE_DIST_MAX_PX - 1) / STROKE_SAMPLE_DIST_MAX_PX - 1) := by
  constructor
  · norm_num [STROKE_SAMPLE_DIST_MAX_PX]
  · have h16 : (curve_draw_event_add_substeps opsTest cddTest strokeElemZero
        { strokeElemZero with mval := (4, 0) } false 0 16).1.length = 1 := by
      simp only [curve_draw_event_add_substeps,
        if_pos (by norm_num [STROKE_SAMPLE_DIST_MAX_PX] :
          ((STROKE_SAMPLE_DIST_MAX_PX : ℚ) * STROKE_SAMPLE_DIST_MAX_PX) ≤ (16 : ℚ)),
        ceilSqrt_sixteen]
      norm_num [STROKE_SAMPLE_DIST_MAX_PX, List.range']
    rw [h16, ceilSqrt_sixteen]
    norm_num [STROKE_SAMPLE_DIST_MAX_PX]

/-- Witness for the amended C3 theorem at squared distance 36:
`n = ceilSqrt 36 / 3 = 2`, one intermediate at `t = 1/2`. -/
theorem C3_substep_interpolation_witness :
    ((STROKE_SAMPLE_DIST_MAX_PX : ℚ) * STROKE_SAMPLE_DIST_MAX_PX ≤ 36) ∧
    ((curve_draw_event_add_substeps opsTest cddTest strokeElemZero
        { strokeElemZero with mval := (6, 0) } false 0 36).1.map (fun s => s.mval) =
      (List.range' 1 (ceilSqrt 36 / STROKE_SAMPLE_DIST_MAX_PX - 1)).map (fun (i : ℕ) =>
        (interp_f_v strokeElemZero.mval.1
          ({ strokeElemZero with mval := ((6 : ℚ), (0 : ℚ)) } : StrokeElem).mval.1
          ((i : ℚ) / ((ceilSqrt 36 / STROKE_SAMPLE_DIST_MAX_PX : ℕ) : ℚ)),
         interp_f_v strokeElemZero.mval.2
          ({ strokeElemZero with mval := ((6 : ℚ), (0 : ℚ)) } : StrokeElem).mval.2
          ((i : ℚ) / ((ceilSqrt 36 / STROKE_SAMPLE_DIST_MAX_PX : ℕ) : ℚ)))) ++
        [({ strokeElemZero with mval := ((6 : ℚ), (0 : ℚ)) } : StrokeElem).mval] ∧
    (curve_draw_event_add_substeps opsTest cddTest strokeElemZero
        { strokeElemZero with mval := (6, 0) } false 0 36).1.length =
      ceilSqrt 36 / STROKE_SAMPLE_DIST_MAX_PX ∧
    (∀ i ∈ List.range' 1 (ceilSqrt 36 / STROKE_SAMPLE_DIST_MAX_PX - 1),
      0 < (i : ℚ) / ((ceilSqrt 36 / STROKE_SAMPLE_DIST_MAX_PX : ℕ) : ℚ) ∧
      (i : ℚ) / ((ceilSqrt 36 / STROKE_SAMPLE_DIST_MAX_PX : ℕ) : ℚ) < 1) ∧
    ((List.range' 1 (ceilSqrt 36 / STROKE_SAMPLE_DIST_MAX_PX - 1)).map (fun (i : ℕ) =>
      (i : ℚ) / ((ceilSqrt 36 / STROKE_SAMPLE_DIST_MAX_PX : ℕ) : ℚ))).Pairwise (· < ·)) :=
  ⟨by norm_num [STROKE_SAMPLE_DIST_MAX_PX],
    (C3_substep_interpolation opsTest cddTest strokeElemZero
      { strokeElemZero with mval := (6, 0) } false 0 36).1
      (by norm_num [STROKE_SAMPLE_DIST_MAX_PX])⟩

/-! ## Model of the taper block of `curve_draw_exec_precalc`
(lines 719-767) -/

/-- The running arc-length accumulation (`lengths[i] = lengths[i-1] +
len_v3v3(...)`); `dist` abstracts the external Euclidean `len_v3v3`
(a square root, hence a parameter of the embedding). -/
def cumulative_lengths_aux (dist : V3 → V3 → ℚ) :
    StrokeElem → ℚ → List StrokeElem → List ℚ
  | _, _, [] => []
  | prev, acc, s :: rest =>
    (acc + dist s.location_local prev.location_local) ::
      cumulative_lengths_aux dist s (acc + dist s.location_local prev.location_local) rest

/-- Cumulative 3D arc lengths over the full ordered sequence,
accumulated once before either taper pass (`lengths[0] = 0`). -/
def cumulative_lengths (dist : V3 → V3 → ℚ) : List StrokeElem → List ℚ
  | [] => []
  | s :: rest => 0 :: cumulative_lengths_aux dist s 0 rest

/-- The taper-start loop (lines 747-753): walk forward while
`lengths[i] < len_taper_max`, scaling pressure by
`lengths[i] / len_taper_max` through `stroke_elem_pressure_set`; stop
at the first sample at or past the taper-zone end. -/
def taper_start_pass (cdd : CurveDrawData) (len_taper_max : ℚ) :
    List (ℚ × StrokeElem) → List StrokeElem
  | [] => []
  | (len, s) :: rest =>
    if len < len_taper_max then
      stroke_elem_pressure_set cdd s (s.pressure * (len / len_taper_max)) ::
        taper_start_pass cdd len_taper_max rest
    else
      s :: rest.map (fun z => z.2)

/-- The taper-end loop (lines 755-763), expressed on the reversed
sequence: walk backward while `i > 0 && lengths[i] > len_taper_min`,
scaling pressure by `(len_3d - lengths[i]) / len_taper_max`; the
sample at index 0 (the final element of the reversed list) is never
touched. -/
def taper_end_pass_rev (cdd : CurveDrawData) (len_3d len_taper_max len_taper_min : ℚ) :
    List (ℚ × StrokeElem) → List StrokeElem
  | [] => []
  | [z] => [z.2]
  | (len, s) :: z2 :: rest =>
    if len_taper_min < len then
      stroke_elem_pressure_set cdd s (s.pressure * ((len_3d - len) / len_taper_max)) ::
        taper_end_pass_rev cdd len_3d len_taper_max len_taper_min (z2 :: rest)
    else
      s :: (z2 :: rest).map (fun z => z.2)

/-- The taper block of `curve_draw_exec_precalc` (lines 719-767): when
either taper fraction is non-zero, accumulate the lengths once, then
run the start pass and the end pass (`len_taper_max = fraction *
len_3d`, `len_taper_min = len_3d - len_taper_max`), each guarded by
its own fraction being non-zero. -/
def curve_draw_exec_precalc_taper (cdd : CurveDrawData) (dist : V3 → V3 → ℚ)
    (radius_taper_start radius_taper_end : ℚ) (samples : List StrokeElem) :
    List StrokeElem :=
  if radius_taper_start ≠ 0 ∨ radius_taper_end ≠ 0 then
    let lengths := cumulative_lengths dist samples
    let len_3d := lengths.getLastD 0
    let s1 :=
      if radius_taper_start ≠ 0 then
        taper_start_pass cdd (radius_taper_start * len_3d) (lengths.zip samples)
      else samples
    if radius_taper_end ≠ 0 then
      (taper_end_pass_rev cdd len_3d (radius_taper_end * len_3d)
        (len_3d - radius_taper_end * len_3d) ((lengths.zip s1).reverse)).reverse
    else s1
  else samples

/-! ### Claim C5: helper lemmas -/

/-- `stroke_elem_pressure_set` stores exactly the given pressure. -/
theorem stroke_elem_pressure_set_pressure (cdd : CurveDrawData) (s : StrokeElem) (p : ℚ) :
    (stroke_elem_pressure_set cdd s p).pressure = p := by
  unfold stroke_elem_pressure_set
  split <;> rfl

theorem cumulative_lengths_aux_length (dist : V3 → V3 → ℚ) :
    ∀ (l : List StrokeElem) (prev : StrokeElem) (acc : ℚ),
      (cumulative_lengths_aux dist prev acc l).length = l.length := by
  intro l
  induction l with
  | nil => intro prev acc; rfl
  | cons s rest ih =>
    intro prev acc
    simp [cumulative_lengths_aux, ih]

theorem cumulative_lengths_length (dist : V3 → V3 → ℚ) (l : List StrokeElem) :
    (cumulative_lengths dist l).length = l.length := by
  cases l with
  | nil => rfl
  | cons s rest => simp [cumulative_lengths, cumulative_lengths_aux_length]

/-- Every accumulated length is at least the incoming accumulator. -/
theorem cumulative_lengths_aux_le (dist : V3 → V3 → ℚ)
    (hdist : ∀ a b, 0 ≤ dist a b) :
    ∀ (l : List StrokeElem) (prev : StrokeElem) (acc : ℚ),
      ∀ x ∈ cumulative_lengths_aux dist prev acc l, acc ≤ x := by
  intro l
  induction l with
  | nil => intro prev acc x hx; simp [cumulative_lengths_aux] at hx
  | cons s rest ih =>
    intro prev acc x hx
    simp only [cumulative_lengths_aux, List.mem_cons] at hx
    rcases hx with h | h
    · have := hdist s.location_local prev.location_local
      linarith [h.ge, h.le]
    · have h1 := ih s (acc + dist s.location_local prev.location_local) x h
      have := hdist s.location_local prev.location_local
      linarith

/-- The accumulated lengths are non-decreasing. -/
theorem cumulative_lengths_aux_sorted (dist : V3 → V3 → ℚ)
    (hdist : ∀ a b, 0 ≤ dist a b) :
    ∀ (l : List StrokeElem) (prev : StrokeElem) (acc : ℚ),
      (cumulative_lengths_aux dist prev acc l).Sorted (· ≤ ·) := by
  intro l
  induction l with
  | nil => intro prev acc; simp [cumulative_lengths_aux]
  | cons s rest ih =>
    intro prev acc
    simp only [cumulative_lengths_aux, List.sorted_cons]
    exact ⟨fun b hb => cumulative_lengths_aux_le dist hdist rest s _ b hb, ih s _⟩

theorem cumulative_lengths_sorted (dist : V3 → V3 → ℚ)
    (hdist : ∀ a b, 0 ≤ dist a b) (l : List StrokeElem) :
    (cumulative_lengths dist l).Sorted (· ≤ ·) := by
  cases l with
  | nil => simp [cumulative_lengths]
  | cons s rest =>
    simp only [cumulative_lengths, List.sorted_cons]
    constructor
    · intro b hb
      exact cumulative_lengths_aux_le dist hdist rest s 0 b hb
    · exact cumulative_lengths_aux_sorted dist hdist rest s 0

/-- Every accumulated length is non-negative. -/
theorem cumulative_lengths_nonneg (dist : V3 → V3 → ℚ)
    (hdist : ∀ a b, 0 ≤ dist a b) (l : List StrokeElem) :
    ∀ x ∈ cumulative_lengths dist l, 0 ≤ x := by
  cases l with
  | nil => intro x hx; simp [cumulative_lengths] at hx
  | cons s rest =>
    intro x hx
    simp only [cumulative_lengths, List.mem_cons] at hx
    rcases hx with h | h
    · exact h.ge.trans (le_of_eq rfl)
    · exact cumulative_lengths_aux_le dist hdist rest s 0 x h

/-- The total length (`len_3d`, the last accumulated value) is
non-negative. -/
theorem cumulative_lengths_getLastD_nonneg (dist : V3 → V3 → ℚ)
    (hdist : ∀ a b, 0 ≤ dist a b) (l : List StrokeElem) :
    0 ≤ (cumulative_lengths dist l).getLastD 0 := by
  by_cases hne : cumulative_lengths dist l = []
  · rw [hne]
    simp
  · rw [List.getLastD_eq_getLast?, List.getLast?_eq_getLast _ hne]
    simp only [Option.getD_some]
    exact cumulative_lengths_nonneg dist hdist l _ (List.getLast_mem hne)

/-- With non-decreasing lengths, the break-on-first-failure start loop
acts pointwise. -/
theorem taper_start_pass_map (cdd : CurveDrawData) (ltm : ℚ) :
    ∀ zs : List (ℚ × StrokeElem), List.Pairwise (fun a b => a.1 ≤ b.1) zs →
      taper_start_pass cdd ltm zs =
        zs.map (fun z =>
          if z.1 < ltm then
            stroke_elem_pressure_set cdd z.2 (z.2.pressure * (z.1 / ltm))
          else z.2) := by
  intro zs
  induction zs with
  | nil => intro _; rfl
  | cons z rest ih =>
    intro hp
    obtain ⟨len, s⟩ := z
    rw [List.pairwise_cons] at hp
    by_cases h : len < ltm
    · simp only [taper_start_pass, List.map_cons, if_pos h]
      rw [ih hp.2]
    · simp only [taper_start_pass, List.map_cons, if_neg h]
      congr 1
      symm
      apply List.map_congr_left
      intro w hw
      rw [if_neg (fun hlt => h (lt_of_le_of_lt (hp.1 w hw) hlt))]

/-- With non-increasing lengths and the final (index-0) element outside
the taper zone, the break-on-first-failure end loop acts pointwise. -/
theorem taper_end_pass_rev_map (cdd : CurveDrawData) (len_3d ltm ltmin : ℚ) :
    ∀ zs : List (ℚ × StrokeElem), List.Pairwise (fun a b => b.1 ≤ a.1) zs →
      (∀ z : ℚ × StrokeElem, zs.getLast? = some z → ¬(ltmin < z.1)) →
      taper_end_pass_rev cdd len_3d ltm ltmin zs =
        zs.map (fun z =>
          if ltmin < z.1 then
            stroke_elem_pressure_set cdd z.2 (z.2.pressure * ((len_3d - z.1) / ltm))
          else z.2) := by
  intro zs
  induction zs with
  | nil => intro _ _; rfl
  | cons z rest ih =>
    intro hp hlast
    obtain ⟨len, s⟩ := z
    rw [List.pairwise_cons] at hp
    cases rest with
    | nil =>
      have h0 : ¬(ltmin < len) := hlast (len, s) (by simp)
      simp only [taper_end_pass_rev, List.map_cons, List.map_nil, if_neg h0]
    | cons z2 rest2 =>
      by_cases h : ltmin < len
      · simp only [taper_end_pass_rev, List.map_cons, if_pos h]
        have hrest := ih hp.2 (fun w hw => hlast w (by
          rw [List.getLast?_cons_cons]
          exact hw))
        rw [hrest]
        simp [List.map_cons]
      · have hall : ∀ w ∈ (len, s) :: z2 :: rest2, ¬(ltmin < w.1) := by
          intro w hw
          rcases List.mem_cons.mp hw with hw1 | hw2
          · rw [hw1]
            exact h
          · exact fun hlt => h (lt_of_lt_of_le hlt (hp.1 w hw2))
        have hmap : ((len, s) :: z2 :: rest2).map (fun z =>
            if ltmin < z.1 then
              stroke_elem_pressure_set cdd z.2 (z.2.pressure * ((len_3d - z.1) / ltm))
            else z.2) =
            ((len, s) :: z2 :: rest2).map (fun z => z.2) :=
          List.map_congr_left (fun w hw => if_neg (hall w hw))
        rw [hmap]
        simp only [taper_end_pass_rev, if_neg h, List.map_cons]

/-- Pairwise comparison of first components of a zip, from sortedness
of the first list. -/
theorem pairwise_fst_zip {β : Type} (l1 : List ℚ) (l2 : List β)
    (hlen : l1.length ≤ l2.length) (hs : l1.Sorted (· ≤ ·)) :
    List.Pairwise (fun (a b : ℚ × β) => a.1 ≤ b.1) (l1.zip l2) := by
  have hmap : (l1.zip l2).map Prod.fst = l1 := List.map_fst_zip l1 l2 hlen
  have hs' : List.Pairwise (· ≤ ·) ((l1.zip l2).map Prod.fst) := by
    rw [hmap]
    exact hs
  exact List.pairwise_map.mp hs'

/-- Indexing a zip of sufficiently long lists. -/
theorem getElem?_zip_of_lt {β : Type} (l1 : List ℚ) (l2 : List β) (i : ℕ)
    (h1 : i < l1.length) (h2 : i < l2.length) :
    (l1.zip l2)[i]? = some (l1[i], l2[i]) := by
  have hz : i < (l1.zip l2).length := by
    rw [List.length_zip]
    omega
  rw [List.getElem?_eq_getElem hz]
  congr 1
  exact List.getElem_zip

/-- Claim C5: with non-negative segment lengths (true of the Euclidean
metric abstracted by `dist`) and taper-end fraction at most 1, every
sample's final pressure follows the taper formulas: when the start
fraction `ts` is non-zero, a sample with cumulative length
`L < ts * total` has its pressure multiplied by `L / (ts * total)`;
then, when the end fraction `te` is non-zero, a sample with
`L > total - te * total` has its (possibly already tapered) pressure
multiplied by `(total - L) / (te * total)`; samples outside both zones
keep their pressure, and the arc lengths are accumulated once over the
full ordered sequence before either pass. -/
theorem C5_taper_pressures (cdd : CurveDrawData) (dist : V3 → V3 → ℚ)
    (ts te : ℚ) (samples : List StrokeElem)
    (hdist : ∀ a b, 0 ≤ dist a b) (hte : te ≤ 1)
    (i : ℕ) (hi : i < samples.length) :
    ((curve_draw_exec_precalc_taper cdd dist ts te samples).map
        (fun s => s.pressure))[i]? =
      some
        (let lengths := cumulative_lengths dist samples
         let total := lengths.getLastD 0
         let L := lengths.getD i 0
         let p1 := if ts ≠ 0 ∧ L < ts * total then
             samples[i].pressure * (L / (ts * total))
           else samples[i].pressure
         if te ≠ 0 ∧ total - te * total < L then p1 * ((total - L) / (te * total))
         else p1) := by
  classical
  have hlenL : (cumulative_lengths dist samples).length = samples.length :=
    cumulative_lengths_length dist samples
  set lengths := cumulative_lengths dist samples with hLdef
  set total := lengths.getLastD 0 with hTdef
  have hiL : i < lengths.length := by
    rw [hlenL]
    exact hi
  have hsor : lengths.Sorted (· ≤ ·) := cumulative_lengths_sorted dist hdist samples
  have hT0 : 0 ≤ total := cumulative_lengths_getLastD_nonneg dist hdist samples
  have hLd : lengths.getD i 0 = lengths[i] := by
    rw [List.getD_eq_getElem?_getD, List.getElem?_eq_getElem hiL, Option.getD_some]
  set f1 : ℚ × StrokeElem → StrokeElem := fun z =>
    if ts ≠ 0 ∧ z.1 < ts * total then
      stroke_elem_pressure_set cdd z.2 (z.2.pressure * (z.1 / (ts * total)))
    else z.2 with hf1
  set f2 : ℚ × StrokeElem → StrokeElem := fun z =>
    if te ≠ 0 ∧ total - te * total < z.1 then
      stroke_elem_pressure_set cdd z.2 (z.2.pressure * ((total - z.1) / (te * total)))
    else z.2 with hf2
  set s1v : List StrokeElem := (lengths.zip samples).map f1 with hs1v
  have hs1len : s1v.length = samples.length := by
    rw [hs1v, List.length_map, List.length_zip]
    omega
  have hs1 : (if ts ≠ 0 then
      taper_start_pass cdd (ts * total) (lengths.zip samples) else samples) = s1v := by
    by_cases hts : ts = 0
    · rw [if_neg (not_not_intro hts), hs1v]
      have hcg : (lengths.zip samples).map f1 = (lengths.zip samples).map (fun z => z.2) := by
        apply List.map_congr_left
        intro z hz
        rw [hf1]
        dsimp only
        exact if_neg (fun hc => hc.1 hts)
      rw [hcg]
      exact (List.map_snd_zip lengths samples (le_of_eq hlenL.symm)).symm
    · rw [if_pos hts]
      rw [taper_start_pass_map cdd (ts * total) _
        (pairwise_fst_zip lengths samples (le_of_eq hlenL) hsor)]
      apply List.map_congr_left
      intro z hz
      rw [hf1]
      dsimp only
      by_cases hc : z.1 < ts * total
      · rw [if_pos hc, if_pos ⟨hts, hc⟩]
      · rw [if_neg hc, if_neg (fun hand => hc hand.2)]
  have hzip2_pair : List.Pairwise (fun (a b : ℚ × StrokeElem) => b.1 ≤ a.1)
      ((lengths.zip s1v).reverse) := by
    rw [List.pairwise_reverse]
    exact pairwise_fst_zip lengths s1v (le_of_eq (hlenL.trans hs1len.symm)) hsor
  have hhead : ∀ z : ℚ × StrokeElem, (lengths.zip s1v).head? = some z → z.1 = 0 := by
    intro z hz
    cases hsamp : samples with
    | nil =>
      rw [hsamp] at hi
      simp at hi
    | cons s0 rest =>
      have hL0 : ∃ laux, lengths = 0 :: laux := by
        rw [hLdef, hsamp]
        exact ⟨_, rfl⟩
      obtain ⟨laux, hL0⟩ := hL0
      have hs1v0 : ∃ a s1rest, s1v = a :: s1rest := by
        cases hs : s1v with
        | nil =>
          rw [hs] at hs1len
          rw [hsamp] at hs1len
          simp at hs1len
        | cons a t => exact ⟨a, t, rfl⟩
      obtain ⟨a, s1rest, hs1v0⟩ := hs1v0
      rw [hL0, hs1v0] at hz
      rw [List.zip_cons_cons] at hz
      simp only [List.head?_cons, Option.some.injEq] at hz
      rw [← hz]
  have hres : curve_draw_exec_precalc_taper cdd dist ts te samples =
      (lengths.zip s1v).map f2 := by
    by_cases hout : ts ≠ 0 ∨ te ≠ 0
    · simp only [curve_draw_exec_precalc_taper, if_pos hout]
      rw [← hLdef, ← hTdef, hs1]
      by_cases hte0 : te = 0
      · rw [if_neg (not_not_intro hte0)]
        have hcg : (lengths.zip s1v).map f2 = (lengths.zip s1v).map (fun z => z.2) := by
          apply List.map_congr_left
          intro z hz
          rw [hf2]
          dsimp only
          exact if_neg (fun hc => hc.1 hte0)
        rw [hcg]
        exact (List.map_snd_zip lengths s1v (le_of_eq (hs1len.trans hlenL.symm))).symm
      · rw [if_pos hte0]
        rw [taper_end_pass_rev_map cdd total (te * total) (total - te * total) _
          hzip2_pair ?hlast]
        case hlast =>
          intro z hz
          rw [List.getLast?_reverse] at hz
          have hz0 := hhead z hz
          rw [hz0]
          intro hcon
          nlinarith [hT0, hte]
        rw [List.map_reverse, List.reverse_reverse]
        apply List.map_congr_left
        intro z hz
        rw [hf2]
        dsimp only
        by_cases hc : total - te * total < z.1
        · rw [if_pos hc, if_pos ⟨hte0, hc⟩]
        · rw [if_neg hc, if_neg (fun hand => hc hand.2)]
    · push_neg at hout
      simp only [curve_draw_exec_precalc_taper,
        if_neg (by push_neg; exact hout : ¬(ts ≠ 0 ∨ te ≠ 0))]
      have hcg2 : (lengths.zip s1v).map f2 = (lengths.zip s1v).map (fun z => z.2) := by
        apply List.map_congr_left
        intro z hz
        rw [hf2]
        dsimp only
        exact if_neg (fun hc => hc.1 hout.2)
      have hcg1 : (lengths.zip samples).map f1 = (lengths.zip samples).map (fun z => z.2) := by
        apply List.map_congr_left
        intro z hz
        rw [hf1]
        dsimp only
        exact if_neg (fun hc => hc.1 hout.1)
      rw [hcg2, List.map_snd_zip lengths s1v (le_of_eq (hs1len.trans hlenL.symm)), hs1v,
        hcg1, List.map_snd_zip lengths samples (le_of_eq hlenL.symm)]
  have his1 : i < s1v.length := by
    rw [hs1len]
    exact hi
  have he1 : s1v[i] = f1 (lengths[i], samples[i]) := by
    have h' : s1v[i]? = some (f1 (lengths[i], samples[i])) := by
      rw [hs1v, List.getElem?_map, getElem?_zip_of_lt lengths samples i hiL hi,
        Option.map_some']
    rw [List.getElem?_eq_getElem his1] at h'
    exact Option.some.inj h'
  rw [hres, List.map_map, List.getElem?_map, getElem?_zip_of_lt lengths s1v i hiL his1,
    Option.map_some']
  simp only [Function.comp_apply, hLd]
  rw [he1, hf1, hf2]
  dsimp only
  split_ifs <;> simp [stroke_elem_pressure_set_pressure, hTdef, List.getLastD_eq_getLast?]

/-- Fixture: five identical full-pressure samples, constant unit
segment metric. -/
def samplesTest : List StrokeElem :=
  List.replicate 5 { strokeElemZero with pressure := 1 }

/-- Witness for C5 at a concrete input: `ts = te = 1/2`, unit segment
metric, sample index 1. -/
theorem C5_taper_pressures_witness :
    ((curve_draw_exec_precalc_taper cddTest (fun _ _ => 1) (1/2) (1/2) samplesTest).map
        (fun s => s.pressure))[1]? =
      some
        (let lengths := cumulative_lengths (fun _ _ => 1) samplesTest
         let total := lengths.getLastD 0
         let L := lengths.getD 1 0
         let p1 := if (1/2 : ℚ) ≠ 0 ∧ L < (1/2) * total then
             (samplesTest.get ⟨1, by norm_num [samplesTest]⟩).pressure * (L / ((1/2) * total))
           else (samplesTest.get ⟨1, by norm_num [samplesTest]⟩).pressure
         if (1/2 : ℚ) ≠ 0 ∧ total - (1/2) * total < L then
           p1 * ((total - L) / ((1/2) * total))
         else p1) :=
  C5_taper_pressures cddTest (fun _ _ => 1) (1/2) (1/2) samplesTest
    (fun _ _ => by norm_num) (by norm_num) 1 (by norm_num [samplesTest])

end Blender
